import Mathlib

/-
Verification development for the boostpow-js core codec.

The definitions below are a shallow embedding of the TypeScript sources:
  - src/lib/work/proof.ts   (work.Puzzle, work.Solution, meta, pow_string, work.Proof)
  - src/bsv block header    (BlockHeader: fromBuffer, toBuffer, getTargetDifficulty,
                             validProofOfWork — including the faulty id getter)
  - src/lib/puzzle.ts       (Job.toScript, Job.readScript, Job.remainingOperationsMatchExactly,
                             the BODY_V1 / BODY_V2 op lists, Puzzle constructor,
                             createRedeemTransaction fee stage)
  - src/lib/transaction.ts  (varIntSize, estimateTransactionSize, serializedSize,
                             Writer.write_input / write_output / write_transaction)
  - src/lib/bsv/script/script.ts (chunk construction: _addBuffer and _addOpcode)

Buffers are lists of byte values (Nat, each < 256 where the source guarantees it).
JavaScript numbers that hold byte patterns are modelled as Nat bit patterns;
signed 32-bit reads are modelled as Int where the sign is observable.
Fallible code returns Option or Except.  Functions of the repository that are
not present under src (the field classes of src/lib/fields, src/lib/utils.ts and
work/string.ts) are modelled from the specification and are marked as such in
their doc comments.
-/

namespace Boost

/-- Byte strings are lists of byte values. -/
abbrev Bytes := List Nat

/-- Truncation to a 32-bit word, the implicit wrap of JavaScript bitwise results. -/
def w32 (n : Nat) : Nat := n % 4294967296

/-- Right rotation of a 32-bit word by n bits. -/
def rotr (n x : Nat) : Nat := w32 ((x >>> n) ||| (x <<< (32 - n)))

/-- Big-endian 4-byte rendering of a 32-bit word. -/
def be4 (n : Nat) : Bytes := [(n >>> 24) % 256, (n >>> 16) % 256, (n >>> 8) % 256, n % 256]

/-- Big-endian 8-byte rendering (used for the SHA-256 length field). -/
def be8 (n : Nat) : Bytes := be4 (n >>> 32) ++ be4 n

/-- Little-endian 4-byte rendering of a 32-bit word. -/
def le4 (n : Nat) : Bytes := [n % 256, (n >>> 8) % 256, (n >>> 16) % 256, (n >>> 24) % 256]

/-- Little-endian 8-byte rendering of a 64-bit value. -/
def le8 (n : Nat) : Bytes := le4 n ++ le4 (n >>> 32)

/-- Read a little-endian 32-bit unsigned value from the first 4 bytes. -/
def readUInt32LE (b : Bytes) : Nat :=
  b.getD 0 0 + 256 * b.getD 1 0 + 65536 * b.getD 2 0 + 16777216 * b.getD 3 0

/-- Read a little-endian 32-bit signed value (the JavaScript readInt32LE). -/
def readInt32LE (b : Bytes) : Int :=
  let u := readUInt32LE b
  if u < 2147483648 then (u : Int) else (u : Int) - 4294967296

/-- Write a signed 32-bit value little-endian (the JavaScript writeInt32LE). -/
def writeInt32LE (i : Int) : Bytes := le4 (i % 4294967296).toNat

/-- Big-endian value of a byte string (how BN reads a hex string). -/
def beNat (b : Bytes) : Nat := b.foldl (fun acc x => 256 * acc + x) 0

/-- SHA-256 round constants. -/
def k256 : List Nat :=
  [1116352408, 1899447441, 3049323471, 3921009573, 961987163, 1508970993,
   2453635748, 2870763221, 3624381080, 310598401, 607225278, 1426881987,
   1925078388, 2162078206, 2614888103, 3248222580, 3835390401, 4022224774,
   264347078, 604807628, 770255983, 1249150122, 1555081692, 1996064986,
   2554220882, 2821834349, 2952996808, 3210313671, 3336571891, 3584528711,
   113926993, 338241895, 666307205, 773529912, 1294757372, 1396182291,
   1695183700, 1986661051, 2177026350, 2456956037, 2730485921, 2820302411,
   3259730800, 3345764771, 3516065817, 3600352804, 4094571909, 275423344,
   430227734, 506948616, 659060556, 883997877, 958139571, 1322822218,
   1537002063, 1747873779, 1955562222, 2024104815, 2227730452, 2361852424,
   2428436474, 2756734187, 3204031479, 3329325298]

/-- SHA-256 initial state. -/
def h256init : List Nat :=
  [1779033703, 3144134277, 1013904242, 2773480762,
   1359893119, 2600822924, 528734635, 1541459225]

/-- Group bytes into big-endian 32-bit words. -/
def bytesToWordsBE : Bytes → List Nat
  | a :: b :: c :: d :: rest => (((a * 256 + b) * 256 + c) * 256 + d) :: bytesToWordsBE rest
  | _ => []

/-- SHA-256 padding: append 0x80, zeros to 56 mod 64, then the bit length big-endian. -/
def sha256pad (msg : Bytes) : Bytes :=
  let L := msg.length
  let k := (119 - L % 64) % 64
  msg ++ (0x80 :: List.replicate k 0) ++ be8 (8 * L)

def sigma0 (x : Nat) : Nat := rotr 7 x ^^^ rotr 18 x ^^^ (x >>> 3)

def sigma1 (x : Nat) : Nat := rotr 17 x ^^^ rotr 19 x ^^^ (x >>> 10)

def bigSigma0 (x : Nat) : Nat := rotr 2 x ^^^ rotr 13 x ^^^ rotr 22 x

def bigSigma1 (x : Nat) : Nat := rotr 6 x ^^^ rotr 11 x ^^^ rotr 25 x

/-- Extend a 16-word block to the 64-word message schedule, appending k more words. -/
def extendSchedule : List Nat → Nat → List Nat
  | w, 0 => w
  | w, Nat.succ m =>
    let n := w.length
    let next := w32 (sigma1 (w.getD (n - 2) 0) + w.getD (n - 7) 0 +
      sigma0 (w.getD (n - 15) 0) + w.getD (n - 16) 0)
    extendSchedule (w ++ [next]) m

/-- State of the eight working variables during compression. -/
structure Sha256State where
  a : Nat
  b : Nat
  c : Nat
  d : Nat
  e : Nat
  f : Nat
  g : Nat
  h : Nat

/-- One SHA-256 round. -/
def sha256round (st : Sha256State) (kw : Nat × Nat) : Sha256State :=
  let t1 := w32 (st.h + bigSigma1 st.e + ((st.e &&& st.f) ^^^ ((4294967295 - st.e) &&& st.g)) +
    kw.1 + kw.2)
  let t2 := w32 (bigSigma0 st.a + ((st.a &&& st.b) ^^^ (st.a &&& st.c) ^^^ (st.b &&& st.c)))
  { a := w32 (t1 + t2), b := st.a, c := st.b, d := st.c,
    e := w32 (st.d + t1), f := st.e, g := st.f, h := st.g }

/-- Compress one 16-word block into the running 8-word state. -/
def compressBlock (h : List Nat) (block : List Nat) : List Nat :=
  let w := extendSchedule block 48
  let st0 : Sha256State :=
    { a := h.getD 0 0, b := h.getD 1 0, c := h.getD 2 0, d := h.getD 3 0,
      e := h.getD 4 0, f := h.getD 5 0, g := h.getD 6 0, h := h.getD 7 0 }
  let st := (k256.zip w).foldl sha256round st0
  [w32 (h.getD 0 0 + st.a), w32 (h.getD 1 0 + st.b), w32 (h.getD 2 0 + st.c),
   w32 (h.getD 3 0 + st.d), w32 (h.getD 4 0 + st.e), w32 (h.getD 5 0 + st.f),
   w32 (h.getD 6 0 + st.g), w32 (h.getD 7 0 + st.h)]

/-- Split a word list into 16-word blocks. -/
def toBlocks : List Nat → List (List Nat)
  | w0 :: w1 :: w2 :: w3 :: w4 :: w5 :: w6 :: w7 ::
    w8 :: w9 :: w10 :: w11 :: w12 :: w13 :: w14 :: w15 :: rest =>
    [w0, w1, w2, w3, w4, w5, w6, w7, w8, w9, w10, w11, w12, w13, w14, w15] :: toBlocks rest
  | _ => []

/-- The SHA-256 digest of a byte string, as 32 bytes. -/
def sha256 (msg : Bytes) : Bytes :=
  let blocks := toBlocks (bytesToWordsBE (sha256pad msg))
  let h := blocks.foldl compressBlock h256init
  (h.map be4).foldr (· ++ ·) []

/-- The double SHA-256 (Hash.sha256sha256 of the bsv library). -/
def hash256 (msg : Bytes) : Bytes := sha256 (sha256 msg)

/-- Hex digit character for a value below 16. -/
def hexDigit (n : Nat) : Char :=
  if n < 10 then Char.ofNat (48 + n) else Char.ofNat (87 + n)

/-- Lower-case hex rendering of a byte string, the .hex form of the field classes. -/
def bytesToHex (b : Bytes) : String :=
  String.mk (b.foldr (fun x acc => hexDigit (x / 16) :: hexDigit (x % 16) :: acc) [])

/-- Value of one hex digit character, accepting both cases. -/
def hexDigitVal (c : Char) : Option Nat :=
  if '0' ≤ c ∧ c ≤ '9' then some (c.toNat - 48)
  else if 'a' ≤ c ∧ c ≤ 'f' then some (c.toNat - 87)
  else if 'A' ≤ c ∧ c ≤ 'F' then some (c.toNat - 70)
  else none

/-- Decode a hex character list two digits at a time. -/
def hexPairs : List Char → Option Bytes
  | [] => some []
  | c1 :: c2 :: rest => do
    let h ← hexDigitVal c1
    let l ← hexDigitVal c2
    let r ← hexPairs rest
    pure ((16 * h + l) :: r)
  | _ => none

/-- Modelled from the spec: Bytes.fromHex of the missing src/lib/fields/bytes.ts,
a variable-length construct-from-hex that fails on malformed hex (the empty
buffer is a legal value, section 3 of the spec). -/
def Bytes.fromHex (s : String) : Option Bytes := hexPairs s.data

/-- Modelled from the spec: the construct-from-hex of the missing fixed-width
4-byte field classes (UInt32Little, UInt32Big, Int32Little), length-checked
per section 4.A; the hex spells the stored buffer bytes in order. -/
def fourByteFromHex (s : String) : Option Bytes :=
  match hexPairs s.data with
  | some b => if b.length = 4 then some b else none
  | none => none

/-- Modelled from the spec: UInt32Little.fromNumber stores the number as its
4-byte little-endian buffer. -/
def uint32LittleFromNumber (n : Nat) : Bytes := le4 n

/-- Nonnegative rational numbers as numerator/denominator pairs.  JavaScript
number values that the source treats as exact quantities (difficulty, the fee
rate) are modelled as exact rationals; every value built below goes through
Frac.norm, so structural equality of normalized values is value equality. -/
structure Frac where
  num : Nat
  den : Nat
deriving DecidableEq

/-- Normalize a fraction by the gcd of its parts. -/
def Frac.norm (n d : Nat) : Frac :=
  let g := Nat.gcd n d
  ⟨n / g, d / g⟩

/-- A natural number as a (normalized) fraction. -/
def Frac.ofNat (n : Nat) : Frac := ⟨n, 1⟩

/-- The pdiff-1 constant 0x00000000FFFF0000...0000 of section 4.A. -/
def pdiff1 : Nat := 65535 * 2 ^ 208

/-- Byte length of a natural number, by fuelled division (covers values below
256^64; every compact target in range is far smaller). -/
def byteLengthAux : Nat → Nat → Nat
  | 0, _ => 0
  | _ + 1, 0 => 0
  | fuel + 1, n => byteLengthAux fuel (n / 256) + 1

def byteLength (n : Nat) : Nat := byteLengthAux 64 n

/-- Modelled from the spec: the compact-bits encoding of a non-negative target
(section 3 and 4.A: bits = (exponent << 24) | mantissa with the mantissa MSB
zero, and re-encoding a decoded value reproduces the same 4 bytes). -/
def compactEncode (t : Nat) : Nat :=
  let size := byteLength t
  let c := if size ≤ 3 then t <<< (8 * (3 - size)) else t >>> (8 * (size - 3))
  if c &&& 0x800000 ≠ 0 then ((size + 1) <<< 24) ||| (c >>> 8)
  else (size <<< 24) ||| c

/-- Modelled from the spec: Utils.difficulty2bits of the missing src/lib/utils.ts;
per section 4.A the target is pdiff1 / difficulty, encoded to compact bits with
arbitrary-precision integers (floor on the non-representable part). -/
def difficulty2bits (d : Frac) : Nat := compactEncode (pdiff1 * d.den / d.num)

/-- Modelled from the spec: the decoded target of a compact-bits word,
target = mantissa * 256^(exponent - 3) (section 4.A), as an exact fraction so
exponents below 3 divide instead of truncating. -/
def bits2target (bits : Nat) : Frac :=
  let mantissa := bits &&& 0xffffff
  let e := bits >>> 24
  if 3 ≤ e then ⟨mantissa * 256 ^ (e - 3), 1⟩ else ⟨mantissa, 256 ^ (3 - e)⟩

/-- Modelled from the spec: Utils.difficulty of the missing src/lib/utils.ts;
difficulty = pdiff1 / target (section 4.A).  A zero mantissa gives the
degenerate fraction with denominator 0 where the JavaScript float gives
Infinity; no claim depends on that point. -/
def bitsToDifficulty (bits : Nat) : Frac :=
  let t := bits2target bits
  Frac.norm (pdiff1 * t.den) t.num

/-- Modelled from the spec: the buffer of the missing Difficulty field class,
the 4 little-endian bytes of the compact encoding of the wrapped number. -/
def difficultyBuffer (d : Frac) : Bytes := le4 (difficulty2bits d)

/-- The work.Puzzle class of src/lib/work/proof.ts.  Field buffers are stored
directly: Category and Mask are 4-byte Int32Little buffers, Content a 32-byte
Digest32 buffer, Difficulty the wrapped number. -/
structure WorkPuzzle where
  category : Bytes
  content : Bytes
  difficulty : Frac
  metaBegin : Bytes
  metaEnd : Bytes
  mask : Option Bytes
deriving DecidableEq

/-- The work.Solution class of src/lib/work/proof.ts; gpr is GeneralPurposeBits. -/
structure WorkSolution where
  time : Bytes
  extraNonce1 : Bytes
  extraNonce2 : Bytes
  nonce : Bytes
  gpr : Option Bytes
deriving DecidableEq

/-- The function meta of src/lib/work/proof.ts: the metadata preimage
MetaBegin || ExtraNonce1 || ExtraNonce2 || MetaEnd. -/
def workMeta (p : WorkPuzzle) (x : WorkSolution) : Bytes :=
  p.metaBegin ++ x.extraNonce1 ++ x.extraNonce2 ++ p.metaEnd

/-- The BlockHeader of the vendored bsv block header module (src/unnamed/part_006),
as parsed by _fromBufferReader: version is a signed 32-bit read, time, bits and
nonce unsigned 32-bit reads, prevHash and merkleRoot raw 32-byte reads. -/
structure BlockHeader where
  version : Int
  prevHash : Bytes
  merkleRoot : Bytes
  time : Nat
  bits : Nat
  nonce : Nat
deriving DecidableEq

/-- BlockHeader._fromBufferReader / fromBuffer on an 80-byte buffer. -/
def BlockHeader.fromBuffer (b : Bytes) : BlockHeader :=
  { version := readInt32LE (b.take 4)
  , prevHash := (b.drop 4).take 32
  , merkleRoot := (b.drop 36).take 32
  , time := readUInt32LE (b.drop 68)
  , bits := readUInt32LE (b.drop 72)
  , nonce := readUInt32LE (b.drop 76) }

/-- BlockHeader.toBufferWriter / toBuffer: version written writeInt32LE, the two
digests raw, then time, bits, nonce little-endian. -/
def BlockHeader.toBuffer (h : BlockHeader) : Bytes :=
  writeInt32LE h.version ++ h.prevHash ++ h.merkleRoot ++ le4 h.time ++ le4 h.bits ++ le4 h.nonce

/-- BlockHeader._getHash: the double SHA-256 of the serialized header. -/
def BlockHeader.getHash (h : BlockHeader) : Bytes := hash256 h.toBuffer

/-- The bytes whose hex spelling the hash getter returns: the double SHA-256
read in reverse (BufferReader(this._getHash()).readReverse()). -/
def BlockHeader.hashDisplayBytes (h : BlockHeader) : Bytes := h.getHash.reverse

/-- The id getter of the vendored block header is written
get id() ... return this.hash() ... but hash is a string-valued getter, not a
method, so evaluating id calls a string and throws a TypeError at run time.
The getter therefore never yields a value; it is modelled as the error it
raises. -/
def BlockHeader.id (_h : BlockHeader) : Except String Bytes :=
  Except.error "TypeError: this.hash is not a function"

/-- BlockHeader.getTargetDifficulty: mantissa = bits & 0xffffff doubled
8 * ((bits >>> 24) - 3) times.  When the exponent is below 3 the JavaScript
loop counter starts negative and the loop body never runs, so the target is
the bare mantissa. -/
def BlockHeader.getTargetDifficulty (h : BlockHeader) : Nat :=
  let mantissa := h.bits &&& 0xffffff
  let e := h.bits >>> 24
  if 3 ≤ e then mantissa * 2 ^ (8 * (e - 3)) else mantissa

/-- BlockHeader.validProofOfWork: pow = BN(this.id, hex) compared with
cmp(target) > 0, i.e. the result would be pow ≤ target — but evaluating
this.id throws (see BlockHeader.id), so the whole call errors.  The hex string
the id getter was meant to return spells the reversed digest, so BN reads the
digest as a little-endian 256-bit integer. -/
def BlockHeader.validProofOfWork (h : BlockHeader) : Except String Bool :=
  (BlockHeader.id h).map (fun s => decide (beNat s ≤ h.getTargetDifficulty))

/-- Modelled from the spec: PowString.valid of the missing src/lib/work/string.ts
delegates to the wrapped block header's validProofOfWork (the claim sources name
BlockHeader.validProofOfWork as the code deciding proof validity). -/
def PowString.valid (h : BlockHeader) : Except String Bool :=
  BlockHeader.validProofOfWork h

/-- The function pow_string of src/lib/work/proof.ts.  With a mask and general
purpose bits the version word is (category & mask) | (gpr & ~mask); the
JavaScript signed bitwise results written by Utils.writeInt32LE (modelled from
the spec, missing utils.ts) produce exactly the 4 little-endian bytes of the
unsigned 32-bit pattern computed here.  Mixed mask/gpr pairings yield no
PowString. -/
def pow_string (p : WorkPuzzle) (x : WorkSolution) : Option BlockHeader :=
  let category? : Option Bytes :=
    match p.mask with
    | some mask =>
      match x.gpr with
      | some g =>
        some (le4 ((readUInt32LE p.category &&& readUInt32LE mask) |||
          (readUInt32LE g &&& (4294967295 - w32 (readUInt32LE mask)))))
      | none => none
    | none =>
      match x.gpr with
      | some _ => none
      | none => some p.category
  category?.map (fun category =>
    BlockHeader.fromBuffer (category ++ p.content ++ hash256 (workMeta p x) ++
      x.time ++ difficultyBuffer p.difficulty ++ x.nonce))

/-- Proof.valid of src/lib/work/proof.ts: false when no PowString is produced,
otherwise the PowString's validity (whose evaluation throws, see BlockHeader.id). -/
def Proof.valid (p : WorkPuzzle) (x : WorkSolution) : Except String Bool :=
  match pow_string p x with
  | some s => PowString.valid s
  | none => Except.ok false

/-- The JSON object Solution.toJSON builds: a share object and extra_nonce_1. -/
structure ShareJson where
  timestamp : String
  nonce : String
  extra_nonce_2 : String
  bits : Option String
deriving DecidableEq

structure SolutionJson where
  share : ShareJson
  extra_nonce_1 : String
deriving DecidableEq

/-- Solution.toJSON of src/lib/work/proof.ts, transcribed as written: the
extra_nonce_2 field is assigned this.Nonce.hex (not this.ExtraNonce2.hex), and
bits is set exactly when GeneralPurposeBits is present. -/
def Solution.toJSON (x : WorkSolution) : SolutionJson :=
  { share :=
    { timestamp := bytesToHex x.time
    , nonce := bytesToHex x.nonce
    , extra_nonce_2 := bytesToHex x.nonce
    , bits := x.gpr.map bytesToHex }
  , extra_nonce_1 := bytesToHex x.extraNonce1 }

/-- A JavaScript value as seen by Solution.fromJSON: a string, or any other
value of which only truthiness is observed. -/
inductive JVal
  | str (s : String)
  | nonstr (truthy : Bool)
deriving DecidableEq

def JVal.truthy : JVal → Bool
  | .str s => s ≠ ""
  | .nonstr t => t

def JVal.isString : JVal → Bool
  | .str _ => true
  | .nonstr _ => false

def JVal.asString : JVal → String
  | .str s => s
  | .nonstr _ => ""

/-- The share subobject: each property may be absent. -/
structure JShare where
  timestamp : Option JVal
  nonce : Option JVal
  extra_nonce_2 : Option JVal
  bits : Option JVal
deriving DecidableEq

/-- The value found at x.share: an object with the share fields, or any
non-object value (of which only truthiness matters, since property access on a
truthy primitive yields undefined without throwing). -/
inductive JShareVal
  | obj (o : JShare)
  | prim (truthy : Bool)
deriving DecidableEq

/-- The input value of Solution.fromJSON, restricted to the properties the
function reads. -/
structure JSol where
  share : Option JShareVal
  extra_nonce_1 : Option JVal
deriving DecidableEq

def JSol.shareTruthy (x : JSol) : Bool :=
  match x.share with
  | some (.obj _) => true
  | some (.prim t) => t
  | none => false

/-- Property access x.share.f, yielding undefined (none) when share is missing
or not an object. -/
def JSol.shareField (x : JSol) (f : JShare → Option JVal) : Option JVal :=
  match x.share with
  | some (.obj o) => f o
  | _ => none

def optTruthy : Option JVal → Bool
  | some v => v.truthy
  | none => false

def optIsString : Option JVal → Bool
  | some v => v.isString
  | none => false

def optAsString : Option JVal → String
  | some v => v.asString
  | none => ""

/-- The decoding tail of Solution.fromJSON, past the truthiness and typeof
checks: decode timestamp, extra_nonce_1, extra_nonce_2 and nonce, then bits
when truthy; any decode failure yields undefined. -/
def solutionDecodeTail (ts en1v en2v nv bits : Option JVal) : Option WorkSolution := do
  let time ← fourByteFromHex (optAsString ts)
  let en1 ← fourByteFromHex (optAsString en1v)
  let e2 ← Bytes.fromHex (optAsString en2v)
  let nn ← fourByteFromHex (optAsString nv)
  if optTruthy bits then do
    let g ← fourByteFromHex (optAsString bits)
    pure ⟨time, en1, e2, nn, some g⟩
  else
    pure ⟨time, en1, e2, nn, none⟩

/-- Solution.fromJSON of src/lib/work/proof.ts.  Presence is tested with
JavaScript truthiness (so an empty string counts as missing), string-ness with
typeof, then each hex field is decoded by the width-checked field
constructors; any failure returns undefined.  The function never throws. -/
def Solution.fromJSON (x : JSol) : Option WorkSolution :=
  let ts := x.shareField (fun o => o.timestamp)
  let n := x.shareField (fun o => o.nonce)
  let en2 := x.shareField (fun o => o.extra_nonce_2)
  let bits := x.shareField (fun o => o.bits)
  if ¬ x.shareTruthy ∨ ¬ optTruthy x.extra_nonce_1 ∨
     ¬ optTruthy ts ∨ ¬ optTruthy n ∨ ¬ optTruthy en2 ∨
     ¬ optIsString x.extra_nonce_1 ∨ ¬ optIsString ts ∨
     ¬ optIsString n ∨ ¬ optIsString en2 ∨
     (optTruthy bits ∧ ¬ optIsString bits) then none
  else solutionDecodeTail ts x.extra_nonce_1 en2 n bits

/-- A script chunk of the vendored bsv Script class: a bare opcode, or a push
carrying its payload and the opcode that introduced it (the len field always
equals the payload length in every chunk the library constructs). -/
inductive Chunk
  | op (opcodenum : Nat)
  | push (buf : Bytes) (opcodenum : Nat)
deriving DecidableEq

-- Opcode numbers of the vendored bsv opcode table (standard Bitcoin values).
namespace Op

def OP_0 : Nat := 0
def OP_PUSHDATA1 : Nat := 76
def OP_PUSHDATA2 : Nat := 77
def OP_PUSHDATA4 : Nat := 78
def OP_1NEGATE : Nat := 79
def OP_1 : Nat := 81
def OP_2 : Nat := 82
def OP_3 : Nat := 83
def OP_4 : Nat := 84
def OP_5 : Nat := 85
def OP_6 : Nat := 86
def OP_8 : Nat := 88
def OP_16 : Nat := 96
def OP_VERIFY : Nat := 105
def OP_TOALTSTACK : Nat := 107
def OP_FROMALTSTACK : Nat := 108
def OP_DROP : Nat := 117
def OP_DUP : Nat := 118
def OP_PICK : Nat := 121
def OP_ROLL : Nat := 122
def OP_SWAP : Nat := 124
def OP_CAT : Nat := 126
def OP_SPLIT : Nat := 127
def OP_BIN2NUM : Nat := 129
def OP_SIZE : Nat := 130
def OP_INVERT : Nat := 131
def OP_AND : Nat := 132
def OP_OR : Nat := 133
def OP_EQUALVERIFY : Nat := 136
def OP_SUB : Nat := 148
def OP_MUL : Nat := 149
def OP_RSHIFT : Nat := 153
def OP_LESSTHAN : Nat := 159
def OP_GREATERTHAN : Nat := 160
def OP_LESSTHANOREQUAL : Nat := 161
def OP_WITHIN : Nat := 165
def OP_HASH160 : Nat := 169
def OP_HASH256 : Nat := 170
def OP_CHECKSIG : Nat := 172

end Op

/-- Script._addBuffer of src/lib/bsv/script/script.ts: a direct push below 76
bytes (opcodenum = length, also for the empty buffer), then the PUSHDATA
forms.  Payloads of 2^32 bytes and more throw in the source and do not occur
in any claim. -/
def addBufferChunk (b : Bytes) : Chunk :=
  Chunk.push b
    (if b.length < 76 then b.length
     else if b.length < 256 then Op.OP_PUSHDATA1
     else if b.length < 65536 then Op.OP_PUSHDATA2
     else Op.OP_PUSHDATA4)

/-- Job.toOpCode of src/lib/puzzle.ts composed with buildOut.add: single bytes
1..16 become the small-int opcodes OP_1..OP_16, the single byte 0x81 becomes
OP_1NEGATE, everything else is pushed as a buffer (Script._addBuffer). -/
def toOpCodeChunk (b : Bytes) : Chunk :=
  if b.length = 1 ∧ 1 ≤ b.getD 0 0 ∧ b.getD 0 0 ≤ 16 then Chunk.op (Op.OP_1 + (b.getD 0 0 - 1))
  else if b.length = 1 ∧ b.getD 0 0 = 129 then Chunk.op Op.OP_1NEGATE
  else addBufferChunk b

/-- An element of the expected-operations lists of Job: an opcode number or a
buffer, exactly as the scriptOperations arrays mix both. -/
inductive BodyOp
  | num (n : Nat)
  | buf (b : Bytes)
deriving DecidableEq

/-- Job.ensure_positive of src/lib/puzzle.ts. -/
def ensurePositive : List BodyOp :=
  [.buf [0x00], .num Op.OP_CAT, .num Op.OP_BIN2NUM]

/-- Job.expand_target of src/lib/puzzle.ts. -/
def expandTarget : List BodyOp :=
  [.num Op.OP_SIZE, .num Op.OP_4, .num Op.OP_EQUALVERIFY,
   .num Op.OP_3, .num Op.OP_SPLIT, .num Op.OP_DUP, .num Op.OP_BIN2NUM,
   .num Op.OP_3, .buf [0x21], .num Op.OP_WITHIN, .num Op.OP_VERIFY,
   .num Op.OP_TOALTSTACK, .num Op.OP_DUP, .num Op.OP_BIN2NUM,
   .num Op.OP_0, .num Op.OP_GREATERTHAN, .num Op.OP_VERIFY,
   .buf (List.replicate 29 0x00), .num Op.OP_CAT,
   .num Op.OP_FROMALTSTACK, .num Op.OP_3, .num Op.OP_SUB,
   .num Op.OP_8, .num Op.OP_MUL, .num Op.OP_RSHIFT]

/-- Job.scriptOperationsV1NoASICBoost of src/lib/puzzle.ts (the BODY_V1 ops). -/
def scriptOperationsV1NoASICBoost : List BodyOp :=
  [.num Op.OP_CAT, .num Op.OP_SWAP,
   .num Op.OP_5, .num Op.OP_ROLL, .num Op.OP_DUP, .num Op.OP_TOALTSTACK, .num Op.OP_CAT,
   .num Op.OP_2, .num Op.OP_PICK, .num Op.OP_TOALTSTACK,
   .num Op.OP_5, .num Op.OP_ROLL, .num Op.OP_SIZE, .num Op.OP_4, .num Op.OP_EQUALVERIFY,
   .num Op.OP_CAT,
   .num Op.OP_5, .num Op.OP_ROLL, .num Op.OP_SIZE, .num Op.OP_8, .num Op.OP_EQUALVERIFY,
   .num Op.OP_CAT,
   .num Op.OP_SWAP, .num Op.OP_CAT, .num Op.OP_HASH256,
   .num Op.OP_SWAP, .num Op.OP_TOALTSTACK, .num Op.OP_CAT, .num Op.OP_CAT,
   .num Op.OP_SWAP, .num Op.OP_SIZE, .num Op.OP_4, .num Op.OP_EQUALVERIFY, .num Op.OP_CAT,
   .num Op.OP_FROMALTSTACK, .num Op.OP_CAT,
   .num Op.OP_SWAP, .num Op.OP_SIZE, .num Op.OP_4, .num Op.OP_EQUALVERIFY, .num Op.OP_CAT,
   .num Op.OP_HASH256] ++ ensurePositive ++
  [.num Op.OP_FROMALTSTACK] ++ expandTarget ++ ensurePositive ++
  [.num Op.OP_LESSTHAN, .num Op.OP_VERIFY,
   .num Op.OP_DUP, .num Op.OP_HASH160, .num Op.OP_FROMALTSTACK, .num Op.OP_EQUALVERIFY,
   .num Op.OP_CHECKSIG]

/-- Job.scriptOperationsV2ASICBoost of src/lib/puzzle.ts (the BODY_V2 ops). -/
def scriptOperationsV2ASICBoost : List BodyOp :=
  [.num Op.OP_CAT, .num Op.OP_SWAP,
   .num Op.OP_5, .num Op.OP_ROLL, .num Op.OP_DUP, .num Op.OP_TOALTSTACK, .num Op.OP_CAT,
   .num Op.OP_2, .num Op.OP_PICK, .num Op.OP_TOALTSTACK,
   .num Op.OP_6, .num Op.OP_ROLL, .num Op.OP_SIZE, .num Op.OP_4, .num Op.OP_EQUALVERIFY,
   .num Op.OP_CAT,
   .num Op.OP_6, .num Op.OP_ROLL, .num Op.OP_SIZE, .buf [0x20],
   .num Op.OP_LESSTHANOREQUAL, .num Op.OP_VERIFY, .num Op.OP_CAT,
   .num Op.OP_SWAP, .num Op.OP_CAT, .num Op.OP_HASH256,
   .num Op.OP_SWAP, .num Op.OP_TOALTSTACK, .num Op.OP_CAT, .num Op.OP_TOALTSTACK,
   .buf [0xff, 0x1f, 0x00, 0xe0], .num Op.OP_DUP, .num Op.OP_INVERT,
   .num Op.OP_TOALTSTACK, .num Op.OP_AND,
   .num Op.OP_SWAP, .num Op.OP_FROMALTSTACK, .num Op.OP_AND, .num Op.OP_OR,
   .num Op.OP_FROMALTSTACK, .num Op.OP_CAT,
   .num Op.OP_SWAP, .num Op.OP_SIZE, .num Op.OP_4, .num Op.OP_EQUALVERIFY, .num Op.OP_CAT,
   .num Op.OP_FROMALTSTACK, .num Op.OP_CAT,
   .num Op.OP_SWAP, .num Op.OP_SIZE, .num Op.OP_4, .num Op.OP_EQUALVERIFY, .num Op.OP_CAT,
   .num Op.OP_HASH256] ++ ensurePositive ++
  [.num Op.OP_FROMALTSTACK] ++ expandTarget ++ ensurePositive ++
  [.num Op.OP_LESSTHAN, .num Op.OP_VERIFY,
   .num Op.OP_DUP, .num Op.OP_HASH160, .num Op.OP_FROMALTSTACK, .num Op.OP_EQUALVERIFY,
   .num Op.OP_CHECKSIG]

/-- Job.scriptOperations: choose the body by script version. -/
def scriptOperations (useGeneralPurposeBits : Bool) : List BodyOp :=
  if useGeneralPurposeBits then scriptOperationsV2ASICBoost else scriptOperationsV1NoASICBoost

/-- Buffers among the expected ops are emitted through buildOut.add, bare
numbers as opcode chunks. -/
def bodyChunk : BodyOp → Chunk
  | .num n => Chunk.op n
  | .buf b => addBufferChunk b

def bodyChunks (ops : List BodyOp) : List Chunk := ops.map bodyChunk

/-- Element-by-element comparison of Job.remainingOperationsMatchExactly: a
push chunk matches a buffer expectation when the len field equals the expected
buffer's length (the payload bytes are never compared), a bare opcode chunk
matches an equal opcode number expectation, and nothing else matches.  Lists
of different lengths fail the up-front length check of the source. -/
def matchBody : List Chunk → List BodyOp → Bool
  | [], [] => true
  | c :: cs, e :: es =>
    (match c, e with
     | Chunk.push b _, BodyOp.buf eb => b.length = eb.length
     | Chunk.push _ _, BodyOp.num _ => false
     | Chunk.op n, BodyOp.num m => n = m
     | Chunk.op _, BodyOp.buf _ => false) && matchBody cs es
  | _, _ => false

/-- Job.remainingOperationsMatchExactly of src/lib/puzzle.ts, on the chunks
from the given start position. -/
def remainingOperationsMatchExactly (chunks : List Chunk) (start : Nat)
    (expected : List BodyOp) : Bool :=
  matchBody (chunks.drop start) expected

/-- Modelled from the spec: Utils.fromOpCode of the missing src/lib/utils.ts,
the inverse of the small-int push convention of section 4.B — OP_0 is the
empty payload, OP_1..OP_16 the single bytes 1..16, OP_1NEGATE the byte 0x81,
and a push chunk yields its payload.  The parser applies it only to chunks it
accepted, which are of exactly these shapes. -/
def fromOpCode : Chunk → Bytes
  | Chunk.push b _ => b
  | Chunk.op n =>
    if n = 0 then []
    else if n = Op.OP_1NEGATE then [0x81]
    else if Op.OP_1 ≤ n ∧ n ≤ Op.OP_16 then [n - Op.OP_1 + 1]
    else []

/-- The UTF-8 bytes of the string boostpow. -/
def boostpowBytes : Bytes := [0x62, 0x6f, 0x6f, 0x73, 0x74, 0x70, 0x6f, 0x77]

/-- The Job class of src/lib/puzzle.ts, restricted to the fields the claims
are about (the attached txid/vout/value play no role in any claim).  The
difficulty number is an exact rational; minerPubKeyHash present means the
contract form. -/
structure Job where
  content : Bytes
  difficulty : Frac
  category : Bytes
  tag : Bytes
  additionalData : Bytes
  userNonce : Bytes
  useGeneralPurposeBits : Bool
  minerPubKeyHash : Option Bytes
deriving DecidableEq

/-- The bits getter of Job: UInt32Little.fromNumber (Utils.difficulty2bits). -/
def Job.bits (j : Job) : Bytes := uint32LittleFromNumber (difficulty2bits j.difficulty)

/-- Job.toScript of src/lib/puzzle.ts: the boostpow marker, OP_DROP, the
minerPubKeyHash push for contract jobs, then category, content, bits, tag,
userNonce and additionalData through toOpCode, then the body ops. -/
def Job.toScript (j : Job) : List Chunk :=
  [toOpCodeChunk boostpowBytes, Chunk.op Op.OP_DROP] ++
  (match j.minerPubKeyHash with
   | some m => [toOpCodeChunk m]
   | none => []) ++
  [toOpCodeChunk j.category, toOpCodeChunk j.content, toOpCodeChunk j.bits,
   toOpCodeChunk j.tag, toOpCodeChunk j.userNonce, toOpCodeChunk j.additionalData] ++
  bodyChunks (scriptOperations j.useGeneralPurposeBits)

/-- The tag position test of Job.readScript: a push of at most 20 bytes (an
empty push included — an empty Buffer is truthy) or one of the small-int
opcodes OP_0, OP_1NEGATE, OP_1..OP_16. -/
def tagChunkOK (c : Chunk) : Bool :=
  match c with
  | Chunk.push b _ => b.length ≤ 20
  | Chunk.op n => n = Op.OP_0 || n = Op.OP_1NEGATE || (Op.OP_1 ≤ n && n ≤ Op.OP_16)

/-- The additionalData position test of Job.readScript: any push, or one of
the small-int opcodes. -/
def dataChunkOK (c : Chunk) : Bool :=
  match c with
  | Chunk.push _ _ => true
  | Chunk.op n => n = Op.OP_0 || n = Op.OP_1NEGATE || (Op.OP_1 ≤ n && n ≤ Op.OP_16)

/-- A push chunk whose len field has the given value (chunk.buf truthy and
chunk.len === k, as the parser tests fixed-width fields). -/
def pushLen (c : Chunk) (k : Nat) : Bool :=
  match c with
  | Chunk.push b _ => b.length = k
  | Chunk.op _ => false

/-- A push chunk whose opcodenum field has the given value (chunk.buf truthy
and chunk.opcodenum === k, the bounty/contract detection test). -/
def pushOpcode (c : Chunk) (k : Nat) : Bool :=
  match c with
  | Chunk.push _ o => o = k
  | Chunk.op _ => false

/-- The target decode of Job.readScript: the push bytes hex-reversed and
parsed as an integer read the 4 bytes little-endian; Utils.difficulty turns
them into the difficulty number. -/
def decodeTargetChunk (c : Chunk) : Frac :=
  bitsToDifficulty (readUInt32LE (fromOpCode c))

/-- Job.readScript of src/lib/puzzle.ts.  Every throw of the source (including
the TypeError of reading .buf on a missing chunk) is the none result.  The
body comparison tries BODY_V1 then BODY_V2, from position 8 for the bounty
form and 9 for the contract form. -/
def Job.readScript (cs : List Chunk) : Option Job := do
  let c0 ← cs.get? 0
  let b0 ← match c0 with
    | Chunk.push b _ => some b
    | Chunk.op _ => none
  let c1 ← cs.get? 1
  if ¬ (b0 = boostpowBytes ∧ c1 = Chunk.op Op.OP_DROP) then none
  else do
  let c2 ← cs.get? 2
  if pushOpcode c2 4 then do
    -- bounty form
    let c3 ← cs.get? 3
    let c4 ← cs.get? 4
    let c5 ← cs.get? 5
    let c6 ← cs.get? 6
    let c7 ← cs.get? 7
    if pushLen c3 32 ∧ pushLen c4 4 ∧ tagChunkOK c5 ∧ pushLen c6 4 ∧ dataChunkOK c7 then do
      let gpb ←
        if remainingOperationsMatchExactly cs 8 scriptOperationsV1NoASICBoost then some false
        else if remainingOperationsMatchExactly cs 8 scriptOperationsV2ASICBoost then some true
        else none
      pure
        { content := fromOpCode c3
        , difficulty := decodeTargetChunk c4
        , category := fromOpCode c2
        , tag := fromOpCode c5
        , additionalData := fromOpCode c7
        , userNonce := fromOpCode c6
        , useGeneralPurposeBits := gpb
        , minerPubKeyHash := none }
    else none
  else if pushOpcode c2 20 then do
    -- contract form
    let c3 ← cs.get? 3
    let c4 ← cs.get? 4
    let c5 ← cs.get? 5
    let c6 ← cs.get? 6
    let c7 ← cs.get? 7
    let c8 ← cs.get? 8
    if pushOpcode c3 4 ∧ pushLen c4 32 ∧ pushLen c5 4 ∧ tagChunkOK c6 ∧ pushLen c7 4 ∧
       dataChunkOK c8 then do
      let gpb ←
        if remainingOperationsMatchExactly cs 9 scriptOperationsV1NoASICBoost then some false
        else if remainingOperationsMatchExactly cs 9 scriptOperationsV2ASICBoost then some true
        else none
      pure
        { content := fromOpCode c4
        , difficulty := decodeTargetChunk c5
        , category := fromOpCode c3
        , tag := fromOpCode c6
        , additionalData := fromOpCode c8
        , userNonce := fromOpCode c7
        , useGeneralPurposeBits := gpb
        , minerPubKeyHash := some (fromOpCode c2) }
    else none
  else none

/-- An output of src/lib/transaction.ts: satoshis and script bytes. -/
structure TxOutput where
  satoshis : Nat
  script : Bytes
deriving DecidableEq

/-- An incomplete_input of src/lib/transaction.ts: the script is replaced by a
size estimate. -/
structure IncInput where
  prevTxId : Bytes
  outputIndex : Nat
  scriptSize : Nat
  sequenceNumber : Option Nat
deriving DecidableEq

/-- An input of src/lib/transaction.ts, with concrete script bytes. -/
structure TxInput where
  prevTxId : Bytes
  outputIndex : Nat
  script : Bytes
  sequenceNumber : Option Nat
deriving DecidableEq

/-- An incomplete_transaction of src/lib/transaction.ts. -/
structure IncTx where
  version : Nat
  inputs : List IncInput
  outputs : List TxOutput
  locktime : Option Nat
deriving DecidableEq

/-- A transaction of src/lib/transaction.ts. -/
structure Tx where
  version : Nat
  inputs : List TxInput
  outputs : List TxOutput
  locktime : Option Nat
deriving DecidableEq

/-- varIntSize of src/lib/transaction.ts. -/
def varIntSize (n : Nat) : Nat :=
  if n < 253 then 1
  else if n < 65536 then 3
  else if n < 4294967296 then 5
  else 9

/-- estimateTransactionSize of src/lib/transaction.ts (step 2 of the redeem
recipe): 8 plus the two count var-ints, 40 + varInt(s) + s per input with
s the script-size estimate, 8 + varInt(s) + s per output. -/
def estimateTransactionSize (x : IncTx) : Nat :=
  8 + varIntSize x.outputs.length + varIntSize x.inputs.length +
  (x.inputs.map (fun i => 40 + varIntSize i.scriptSize + i.scriptSize)).sum +
  (x.outputs.map (fun o => 8 + varIntSize o.script.length + o.script.length)).sum

/-- serializedSize of src/lib/transaction.ts: the same shape over concrete
input scripts. -/
def serializedSize (x : Tx) : Nat :=
  8 + varIntSize x.outputs.length + varIntSize x.inputs.length +
  (x.inputs.map (fun i => 40 + varIntSize i.script.length + i.script.length)).sum +
  (x.outputs.map (fun o => 8 + varIntSize o.script.length + o.script.length)).sum

/-- Writer.write_var_int of src/lib/transaction.ts.  In the 9-byte branch the
source writes writeInt32LE(n & -1) then writeUInt32LE(floor(n / 2^32)); the
first is the low 32-bit pattern little-endian. -/
def write_var_int (n : Nat) : Bytes :=
  if n < 253 then [n]
  else if n < 65536 then 253 :: [n % 256, (n >>> 8) % 256]
  else if n < 4294967296 then 254 :: le4 n
  else 255 :: (le4 (n % 4294967296) ++ le4 (n / 4294967296))

/-- Writer.write_input of src/lib/transaction.ts, transcribed as written:
prevTxId, the 4-byte little-endian outputIndex, the script length var-int and
script — and then, in the place of the sequence number, the outputIndex again,
passed through the falsy-default that was meant for sequenceNumber (so a zero
outputIndex writes 0xffffffff).  The sequenceNumber field is never read. -/
def write_input (i : TxInput) : Bytes :=
  i.prevTxId ++ le4 i.outputIndex ++ write_var_int i.script.length ++ i.script ++
  le4 (if i.outputIndex = 0 then 4294967295 else i.outputIndex)

/-- Writer.write_satoshis: the value as 8 little-endian bytes. -/
def write_satoshis (n : Nat) : Bytes := le8 n

/-- Writer.write_output of src/lib/transaction.ts. -/
def write_output (o : TxOutput) : Bytes :=
  write_satoshis o.satoshis ++ write_var_int o.script.length ++ o.script

/-- Writer.write_transaction of src/lib/transaction.ts: version little-endian,
the inputs with their count, the outputs with their count, then the locktime
with falsy default 0.  writeTransaction allocates serializedSize(tx) bytes and
fills them in this order; the byte string is the concatenation. -/
def write_transaction (tx : Tx) : Bytes :=
  le4 tx.version ++
  write_var_int tx.inputs.length ++ (tx.inputs.map write_input).foldr (· ++ ·) [] ++
  write_var_int tx.outputs.length ++ (tx.outputs.map write_output).foldr (· ++ ·) [] ++
  le4 (tx.locktime.getD 0)

/-- The Puzzle constructor of src/lib/puzzle.ts (the facade), as a function of
the job form and of the address derived from the given key: for a contract
output (minerPubKeyHash present) a differing address throws the
invalid-parameters error, a matching one succeeds; for a bounty output the
derived address is stored (the returned value is the _address member).  The
derivation address = hash160(pubkey(key)) itself is the abstract external
operation of section 1 of the spec and enters here as the address argument. -/
def Puzzle.construct (minerPubKeyHash : Option Bytes) (address : Bytes) :
    Except String (Option Bytes) :=
  match minerPubKeyHash with
  | some m => if ¬ (address = m) then Except.error "invalid parameters" else Except.ok none
  | none => Except.ok (some address)

/-- Steps 2 and 3 of Puzzle.createRedeemTransaction (src/lib/puzzle.ts lines
102-105): fee = Math.ceil(estimateTransactionSize(tx) * sats_per_byte), throw
when fee > output.value, otherwise set outputs[0].satoshis = value - fee.  The
fee rate is an exact nonnegative rational; the ceiling of s * (n/d) is
(s * n + d - 1) / d in natural division. -/
def createRedeemTransactionFeeStage (value : Nat) (tx : IncTx) (rate : Frac) :
    Except String Nat :=
  let fee := (estimateTransactionSize tx * rate.num + rate.den - 1) / rate.den
  if fee > value then Except.error "not enough sats to be worth it"
  else Except.ok (value - fee)

/-- The fee of steps 2-3 of createRedeemTransaction, named so the theorems can
speak about it: the ceiling of estimated size times the sats-per-byte rate. -/
def redeemFee (tx : IncTx) (rate : Frac) : Nat :=
  (estimateTransactionSize tx * rate.num + rate.den - 1) / rate.den

end Boost

namespace Boost

/-- Decidable equality for Except results, used to evaluate the embedded
fallible functions at concrete inputs. -/
instance {ε α : Type} [DecidableEq ε] [DecidableEq α] : DecidableEq (Except ε α) :=
  fun a b =>
    match a, b with
    | Except.ok x, Except.ok y =>
      if h : x = y then isTrue (by rw [h]) else isFalse (by simp [h])
    | Except.error x, Except.error y =>
      if h : x = y then isTrue (by rw [h]) else isFalse (by simp [h])
    | Except.ok _, Except.error _ => isFalse (by simp)
    | Except.error _, Except.ok _ => isFalse (by simp)

/-- A concrete input for C6: nonzero vout 2 and an explicit sequence number. -/
def c6input : TxInput :=
  { prevTxId := List.replicate 32 0xaa
  , outputIndex := 2
  , script := [0xab]
  , sequenceNumber := some 4294967295 }

/-- A concrete input for C6 with vout 0: the falsy default fires on the
output index, not on the missing sequence number. -/
def c6inputZero : TxInput :=
  { prevTxId := List.replicate 32 0xbb
  , outputIndex := 0
  , script := []
  , sequenceNumber := some 7 }

/-- A concrete solution for C7: the nonce and extraNonce2 hex differ. -/
def c7solution : WorkSolution :=
  { time := [0x81, 0xc0, 0x6d, 0x5e]
  , extraNonce1 := [0x0a, 0x00, 0x00, 0x0a]
  , extraNonce2 := [0xbf, 0x07, 0x00, 0x00, 0x00, 0x00, 0x00, 0x00]
  , nonce := [0xe0, 0x69, 0xa1, 0x1c]
  , gpr := none }

/-- The same solution carrying general-purpose bits. -/
def c7solutionG : WorkSolution :=
  { c7solution with gpr := some [0xff, 0x1f, 0x00, 0xe0] }

/-- A concrete incomplete transaction of the shape createRedeemTransaction
builds: one input with a script-size estimate, a pay-to-address output and a
data output. -/
def c5tx : IncTx :=
  { version := 1
  , inputs :=
    [ { prevTxId := List.replicate 32 3
      , outputIndex := 0
      , scriptSize := 140
      , sequenceNumber := none } ]
  , outputs :=
    [ { satoshis := 0, script := List.replicate 25 0x55 }
    , { satoshis := 0, script := List.replicate 12 0x6a } ]
  , locktime := none }

/-- A JSON input whose fields are all present, strings, and well-formed hex —
extra_nonce_2 being the empty string, which decodes to the legal empty
buffer. -/
def c10x : JSol :=
  { share := some (JShareVal.obj
      { timestamp := some (JVal.str "00000001")
      , nonce := some (JVal.str "00000002")
      , extra_nonce_2 := some (JVal.str "")
      , bits := none })
  , extra_nonce_1 := some (JVal.str "00000003") }

/-- A fully well-formed JSON input with truthy bits. -/
def c10w : JSol :=
  { share := some (JShareVal.obj
      { timestamp := some (JVal.str "00000004")
      , nonce := some (JVal.str "00000005")
      , extra_nonce_2 := some (JVal.str "aabb")
      , bits := some (JVal.str "00000006") })
  , extra_nonce_1 := some (JVal.str "00000007") }

/-- What the body matcher observes of a chunk: the opcode number of a bare
opcode chunk, or only the payload length of a push chunk. -/
def chunkShape : Chunk → Nat ⊕ Nat
  | Chunk.op n => Sum.inl n
  | Chunk.push b _ => Sum.inr b.length

/-- Well-formedness of a Job as the claim states it, together with the width
invariants the field classes guarantee by construction: content exactly 32
bytes, tag at most 20, positive difficulty, 4-byte category and userNonce, a
20-byte minerPubKeyHash when present, and additionalData small enough for the
push encoder (beyond 2^32 bytes the source throws). -/
def WellFormedJob (j : Job) : Prop :=
  j.content.length = 32 ∧ j.tag.length ≤ 20 ∧ j.category.length = 4 ∧
  j.userNonce.length = 4 ∧ j.additionalData.length < 4294967296 ∧
  (∀ m, j.minerPubKeyHash = some m → m.length = 20) ∧
  0 < j.difficulty.num ∧ 0 < j.difficulty.den


/-- A concrete well-formed v1 bounty job for the C2 and C3 evidence. -/
def c2job : Job :=
  { content := List.replicate 32 7
  , difficulty := ⟨1, 1⟩
  , category := [0, 0, 0, 0]
  , tag := [1]
  , additionalData := []
  , userNonce := [5, 6, 7, 8]
  , useGeneralPurposeBits := false
  , minerPubKeyHash := none }

/-- The locking script of c2job with the 29-zero push payload inside the body
replaced by different bytes of the same length. -/
def c2tampered : List Chunk :=
  (Job.toScript c2job).map (fun c =>
    match c with
    | Chunk.push b o =>
      if b = List.replicate 29 0 then Chunk.push ((42 : Nat) :: List.replicate 28 0) o
      else Chunk.push b o
    | c => c)

/-- A concrete well-formed bounty job whose difficulty 7 has no exactly
representable compact target. -/
def c3job : Job :=
  { content := List.replicate 32 7
  , difficulty := ⟨7, 1⟩
  , category := [0, 0, 0, 0]
  , tag := [9]
  , additionalData := [1, 2, 3]
  , userNonce := [5, 6, 7, 8]
  , useGeneralPurposeBits := false
  , minerPubKeyHash := none }

/-- A concrete well-formed v2 contract job with difficulty 1. -/
def c3wjob : Job :=
  { content := List.replicate 32 1
  , difficulty := ⟨1, 1⟩
  , category := [1, 2, 3, 4]
  , tag := []
  , additionalData := []
  , userNonce := [9, 9, 9, 9]
  , useGeneralPurposeBits := true
  , minerPubKeyHash := some (List.replicate 20 2) }

/-- The 80-byte proof-of-work string of the repository's stratum test vector
(category 00000000, time 5e6dc081, bits 1d00ffff, nonce 1ca169e0). -/
def s2Header : Bytes :=
  [0, 0, 0, 0,
   53, 184, 252, 182, 136, 47, 147, 189, 219, 146, 140, 152, 114, 25, 139, 205,
   240, 87, 171, 147, 237, 97, 90, 217, 56, 242, 74, 99, 171, 222, 88, 129,
   25, 64, 31, 79, 217, 212, 39, 159, 78, 173, 70, 242, 189, 60, 202, 171,
   206, 144, 79, 126, 23, 54, 115, 56, 192, 139, 42, 74, 239, 185, 135, 118,
   129, 192, 109, 94,
   255, 255, 0, 29,
   224, 105, 161, 28]

/-- The work puzzle of the repository's stratum test vector: category 0,
difficulty 1, metaBegin = 20 zero tag bytes followed by the miner pubkey hash,
metaEnd = 4 zero user-nonce bytes followed by 32 zero additional-data bytes. -/
def c1puzzle : WorkPuzzle :=
  { category := [0, 0, 0, 0]
  , content :=
    [53, 184, 252, 182, 136, 47, 147, 189, 219, 146, 140, 152, 114, 25, 139, 205,
     240, 87, 171, 147, 237, 97, 90, 217, 56, 242, 74, 99, 171, 222, 88, 129]
  , difficulty := ⟨1, 1⟩
  , metaBegin := List.replicate 20 0 ++
    [159, 184, 203, 104, 184, 133, 10, 19, 199, 67, 142, 38, 225, 210, 119, 183,
     72, 190, 101, 122]
  , metaEnd := [0, 0, 0, 0] ++ List.replicate 32 0
  , mask := none }

/-- The work solution of the repository's stratum test vector. -/
def c1solution : WorkSolution :=
  { time := [129, 192, 109, 94]
  , extraNonce1 := [10, 0, 0, 10]
  , extraNonce2 := [191, 7, 0, 0, 0, 0, 0, 0]
  , nonce := [224, 105, 161, 28]
  , gpr := none }

/-- C6: the serialized-input layout ends in the sequence number.  The writer of
src/lib/transaction.ts instead serializes the outputIndex a second time: for
vout 2 with sequence 0xffffffff the last 4 bytes are 02 00 00 00, and for
vout 0 with sequence 7 they are ff ff ff ff (the falsy default applied to the
output index).  The prefix — prevTxId, vout, var-int length, script — is as the
claim says. -/
theorem C6_last_four_bytes_are_output_index :
    write_input c6input =
      c6input.prevTxId ++ le4 2 ++ [1, 0xab] ++ [2, 0, 0, 0] ∧
    (write_input c6input).drop 38 = [2, 0, 0, 0] ∧
    c6input.sequenceNumber = some 4294967295 ∧
    [2, 0, 0, 0] ≠ le4 4294967295 ∧
    (write_input c6inputZero).drop 37 = [255, 255, 255, 255] ∧
    c6inputZero.sequenceNumber = some 7 ∧
    write_transaction { version := 1, inputs := [c6input], outputs := [], locktime := none } =
      le4 1 ++ [1] ++ write_input c6input ++ [0] ++ le4 0 := by
  decide

/-- C7: toJSON fills timestamp, nonce and extra_nonce_1 from the right fields
and sets bits exactly when general-purpose bits are present, but assigns
extra_nonce_2 from the nonce hex instead of the extraNonce2 bytes: on a
solution whose extraNonce2 hex is bf07000000000000 the JSON says e069a11c. -/
theorem C7_toJSON_extra_nonce_2_from_nonce :
    Solution.toJSON c7solution =
      { share :=
        { timestamp := "81c06d5e"
        , nonce := "e069a11c"
        , extra_nonce_2 := "e069a11c"
        , bits := none }
      , extra_nonce_1 := "0a00000a" } ∧
    bytesToHex c7solution.extraNonce2 = "bf07000000000000" ∧
    (Solution.toJSON c7solution).share.extra_nonce_2 ≠ bytesToHex c7solution.extraNonce2 ∧
    (Solution.toJSON c7solutionG).share.bits = some "ff1f00e0" := by
  decide

/-- C8: the facade Puzzle constructor errors on a contract output exactly when
the address derived from the key differs from the job's minerPubKeyHash,
succeeds when it matches, and on a bounty output stores the derived address. -/
theorem C8_puzzle_constructor_key_check (m address : Bytes) :
    (Puzzle.construct (some m) address = Except.error "invalid parameters" ↔ address ≠ m) ∧
    (address = m → Puzzle.construct (some m) address = Except.ok none) ∧
    Puzzle.construct none address = Except.ok (some address) := by
  refine ⟨?_, ?_, rfl⟩
  · constructor
    · intro h heq
      simp [Puzzle.construct, heq] at h
    · intro hne
      simp [Puzzle.construct, hne]
  · intro heq
    simp [Puzzle.construct, heq]

/-- Witness for C8 at concrete digests: a wrong key is rejected, the right key
and the bounty form are accepted. -/
theorem C8_puzzle_constructor_key_check_witness :
    (Puzzle.construct (some [1, 2]) [3, 4] = Except.error "invalid parameters" ↔
      ([3, 4] : Bytes) ≠ [1, 2]) ∧
    (([1, 2] : Bytes) = [1, 2] → Puzzle.construct (some [1, 2]) [1, 2] = Except.ok none) ∧
    Puzzle.construct none [3, 4] = Except.ok (some [3, 4]) :=
  ⟨(C8_puzzle_constructor_key_check [1, 2] [3, 4]).1,
   (C8_puzzle_constructor_key_check [1, 2] [1, 2]).2.1,
   (C8_puzzle_constructor_key_check [1, 2] [3, 4]).2.2⟩

/-- C5 amended: the fee gate of createRedeemTransaction raises the
insufficient-funds error exactly when fee is strictly greater than the output
value (not when it is greater or equal), and otherwise sets the first output's
satoshis to value minus fee — so fee equal to the value passes with 0 satoshis. -/
theorem C5_fee_gate_strict (value : Nat) (tx : IncTx) (rate : Frac) :
    (createRedeemTransactionFeeStage value tx rate = Except.error "not enough sats to be worth it"
      ↔ redeemFee tx rate > value) ∧
    (redeemFee tx rate ≤ value →
      createRedeemTransactionFeeStage value tx rate = Except.ok (value - redeemFee tx rate)) := by
  unfold createRedeemTransactionFeeStage redeemFee
  constructor
  · constructor
    · intro h
      by_contra hle
      simp [hle] at h
    · intro hgt
      simp [hgt]
  · intro hle
    have : ¬ ((estimateTransactionSize tx * rate.num + rate.den - 1) / rate.den > value) := by
      omega
    simp [this]

/-- C5 counterexample: with one sat per byte and an output value equal to the
estimated size, the fee equals the value — the claim requires the
InsufficientFunds failure, but the gate passes and allocates 0 satoshis. -/
theorem C5_fee_equal_value_accepted :
    redeemFee c5tx ⟨1, 1⟩ = 246 ∧
    estimateTransactionSize c5tx = 246 ∧
    createRedeemTransactionFeeStage 246 c5tx ⟨1, 1⟩ = Except.ok 0 := by
  decide

/-- Witness for C5 at the concrete transaction: a fee strictly above the value
errors, the equal fee passes. -/
theorem C5_fee_gate_strict_witness :
    (createRedeemTransactionFeeStage 245 c5tx ⟨1, 1⟩ =
        Except.error "not enough sats to be worth it" ↔ redeemFee c5tx ⟨1, 1⟩ > 245) ∧
    (redeemFee c5tx ⟨1, 1⟩ ≤ 246 →
      createRedeemTransactionFeeStage 246 c5tx ⟨1, 1⟩ =
        Except.ok (246 - redeemFee c5tx ⟨1, 1⟩)) :=
  ⟨(C5_fee_gate_strict 245 c5tx ⟨1, 1⟩).1, (C5_fee_gate_strict 246 c5tx ⟨1, 1⟩).2⟩

/-- Per-input size terms agree when each complete script's length equals the
corresponding size estimate. -/
theorem inputsSizeSumEq : ∀ {l1 : List IncInput} {l2 : List TxInput},
    List.Forall₂ (fun (a : IncInput) (b : TxInput) => b.script.length = a.scriptSize) l1 l2 →
    (l1.map (fun i => 40 + varIntSize i.scriptSize + i.scriptSize)).sum =
      (l2.map (fun i => 40 + varIntSize i.script.length + i.script.length)).sum := by
  intro l1 l2 h
  induction h with
  | nil => rfl
  | cons hab _ ih =>
    simp only [List.map_cons, List.sum_cons, ih, hab]

/-- C9: for an incomplete and a complete transaction with the same outputs and
pointwise matching inputs (each concrete script as long as its estimate), the
pre-signing size estimate equals the serialized size. -/
theorem C9_estimate_equals_serialized_size (inc : IncTx) (c : Tx)
    (houts : inc.outputs = c.outputs)
    (hins : List.Forall₂ (fun (a : IncInput) (b : TxInput) => b.script.length = a.scriptSize)
      inc.inputs c.inputs) :
    estimateTransactionSize inc = serializedSize c := by
  unfold estimateTransactionSize serializedSize
  rw [houts, hins.length_eq, inputsSizeSumEq hins]

/-- Witness for C9 at a concrete pair of transactions. -/
theorem C9_estimate_equals_serialized_size_witness :
    estimateTransactionSize
      { version := 1
      , inputs := [{ prevTxId := [7], outputIndex := 1, scriptSize := 2, sequenceNumber := none }]
      , outputs := [{ satoshis := 9, script := [0x51, 0x52, 0x53] }]
      , locktime := none } =
    serializedSize
      { version := 1
      , inputs := [{ prevTxId := [7], outputIndex := 1, script := [1, 2], sequenceNumber := none }]
      , outputs := [{ satoshis := 9, script := [0x51, 0x52, 0x53] }]
      , locktime := none } :=
  C9_estimate_equals_serialized_size _ _ rfl (List.Forall₂.cons rfl List.Forall₂.nil)

/-- The le4 rendering has 4 bytes. -/
theorem le4_length (n : Nat) : (le4 n).length = 4 := rfl

/-- Bytes produced by le4 are below 256. -/
theorem le4_mem_lt (n : Nat) : ∀ y ∈ le4 n, y < 256 := by
  intro y hy
  simp only [le4, List.mem_cons, List.not_mem_nil, or_false] at hy
  rcases hy with h | h | h | h <;> (rw [h]; exact Nat.mod_lt _ (by norm_num))

/-- A valid 4-byte buffer is reproduced by le4 of its little-endian value. -/
theorem le4_readUInt32LE (b : Bytes) (h4 : b.length = 4) (hb : ∀ y ∈ b, y < 256) :
    le4 (readUInt32LE b) = b := by
  match b, h4 with
  | [b0, b1, b2, b3], _ =>
    have hb0 := hb b0 (by simp)
    have hb1 := hb b1 (by simp)
    have hb2 := hb b2 (by simp)
    have hb3 := hb b3 (by simp)
    simp only [le4, readUInt32LE, List.getD, List.get?, Nat.shiftRight_eq_div_pow,
      Option.getD_some, List.getD_cons_zero, List.getD_cons_succ]
    norm_num
    refine ⟨by omega, by omega, by omega, by omega⟩

/-- The little-endian value of a valid 4-byte buffer is below 2^32. -/
theorem readUInt32LE_lt (b : Bytes) (h4 : b.length = 4) (hb : ∀ y ∈ b, y < 256) :
    readUInt32LE b < 4294967296 := by
  match b, h4 with
  | [b0, b1, b2, b3], _ =>
    have hb0 := hb b0 (by simp)
    have hb1 := hb b1 (by simp)
    have hb2 := hb b2 (by simp)
    have hb3 := hb b3 (by simp)
    simp only [readUInt32LE, List.getD_cons_zero, List.getD_cons_succ]
    omega

/-- Writing back the signed read of a valid 4-byte buffer reproduces it. -/
theorem writeInt32LE_readInt32LE (b : Bytes) (h4 : b.length = 4) (hb : ∀ y ∈ b, y < 256) :
    writeInt32LE (readInt32LE b) = b := by
  have hlt := readUInt32LE_lt b h4 hb
  unfold writeInt32LE readInt32LE
  by_cases h : readUInt32LE b < 2147483648
  · simp only [h, if_true]
    have hmod : (((readUInt32LE b : Int)) % 4294967296).toNat = readUInt32LE b := by omega
    rw [hmod]
    exact le4_readUInt32LE b h4 hb
  · simp only [h, if_false]
    have hmod : ((((readUInt32LE b : Int)) - 4294967296) % 4294967296).toNat =
        readUInt32LE b := by omega
    rw [hmod]
    exact le4_readUInt32LE b h4 hb

/-- The first four serialized bytes of a parsed header are the write-back of
the signed read of the first four buffer bytes. -/
theorem toBuffer_take4 (buf : Bytes) :
    (BlockHeader.toBuffer (BlockHeader.fromBuffer buf)).take 4 =
      writeInt32LE (readInt32LE (buf.take 4)) := by
  simp only [BlockHeader.toBuffer, BlockHeader.fromBuffer, writeInt32LE, le4]
  rfl

/-- Taking 4 from a 4-byte list followed by anything gives the list back. -/
theorem take4_append (b rest : Bytes) (h4 : b.length = 4) : (b ++ rest).take 4 = b := by
  rw [← h4, List.take_left]

/-- C4: with neither mask nor general-purpose bits the version bytes of the
produced PoW string are the category buffer unchanged; with both, they are
(category & mask) | (gpr & ~mask) written as 4 little-endian bytes; for the
two mixed pairings pow_string yields nothing and Proof.valid returns false
without any exception. -/
theorem C4_version_field_and_mixed_pairings (p : WorkPuzzle) (x : WorkSolution)
    (h4 : p.category.length = 4) (hb : ∀ y ∈ p.category, y < 256) :
    (p.mask = none → x.gpr = none → ∃ h, pow_string p x = some h ∧
      (BlockHeader.toBuffer h).take 4 = p.category) ∧
    (∀ m g, p.mask = some m → x.gpr = some g → ∃ h, pow_string p x = some h ∧
      (BlockHeader.toBuffer h).take 4 =
        le4 ((readUInt32LE p.category &&& readUInt32LE m) |||
             (readUInt32LE g &&& (4294967295 - w32 (readUInt32LE m))))) ∧
    (∀ m, p.mask = some m → x.gpr = none →
      pow_string p x = none ∧ Proof.valid p x = Except.ok false) ∧
    (∀ g, p.mask = none → x.gpr = some g →
      pow_string p x = none ∧ Proof.valid p x = Except.ok false) := by
  refine ⟨?_, ?_, ?_, ?_⟩
  · intro hm hg
    have hps : pow_string p x = some (BlockHeader.fromBuffer (p.category ++ (p.content ++
        (hash256 (workMeta p x) ++ (x.time ++ (difficultyBuffer p.difficulty ++ x.nonce)))))) := by
      simp [pow_string, hm, hg]
    refine ⟨_, hps, ?_⟩
    rw [toBuffer_take4, take4_append _ _ h4]
    exact writeInt32LE_readInt32LE _ h4 hb
  · intro m g hm hg
    have hps : pow_string p x = some (BlockHeader.fromBuffer
        (le4 ((readUInt32LE p.category &&& readUInt32LE m) |||
           (readUInt32LE g &&& (4294967295 - w32 (readUInt32LE m)))) ++ (p.content ++
        (hash256 (workMeta p x) ++ (x.time ++ (difficultyBuffer p.difficulty ++ x.nonce)))))) := by
      simp [pow_string, hm, hg]
    refine ⟨_, hps, ?_⟩
    rw [toBuffer_take4, take4_append _ _ (le4_length _)]
    exact writeInt32LE_readInt32LE _ (le4_length _) (le4_mem_lt _)
  · intro m hm hg
    constructor <;> simp [pow_string, Proof.valid, hm, hg]
  · intro g hm hg
    constructor <;> simp [pow_string, Proof.valid, hm, hg]

set_option linter.unnecessarySeqFocus false in
/-- The decode tail fails exactly when one of the reached hex decodes fails
(bits only when truthy). -/
theorem solutionDecodeTail_none_iff (ts en1v en2v nv bits : Option JVal) :
    (solutionDecodeTail ts en1v en2v nv bits = none ↔
      fourByteFromHex (optAsString ts) = none ∨
      fourByteFromHex (optAsString en1v) = none ∨
      Bytes.fromHex (optAsString en2v) = none ∨
      fourByteFromHex (optAsString nv) = none ∨
      (optTruthy bits ∧ fourByteFromHex (optAsString bits) = none)) := by
  unfold solutionDecodeTail
  cases hT : fourByteFromHex (optAsString ts) <;>
    cases hE1 : fourByteFromHex (optAsString en1v) <;>
      cases hE2 : Bytes.fromHex (optAsString en2v) <;>
        cases hN : fourByteFromHex (optAsString nv) <;>
          by_cases hbt : (optTruthy bits : Bool) = true <;>
            simp [hbt, Option.bind] <;>
              cases hB : fourByteFromHex (optAsString bits) <;> simp [hB, hbt]

/-- A decoded solution carries general-purpose bits exactly when the bits
property was truthy. -/
theorem solutionDecodeTail_gpr (ts en1v en2v nv bits : Option JVal) (s : WorkSolution) :
    solutionDecodeTail ts en1v en2v nv bits = some s → s.gpr.isSome = optTruthy bits := by
  unfold solutionDecodeTail
  cases hT : fourByteFromHex (optAsString ts) <;>
    cases hE1 : fourByteFromHex (optAsString en1v) <;>
      cases hE2 : Bytes.fromHex (optAsString en2v) <;>
        cases hN : fourByteFromHex (optAsString nv) <;>
          by_cases hbt : (optTruthy bits : Bool) = true <;>
            simp [hbt, Option.bind] <;>
              (try (cases hB : fourByteFromHex (optAsString bits) <;> simp [hB, hbt])) <;>
                (intro h; subst h; simp [hbt])

/-- C10 amended: fromJSON never throws (it is a total function of its input);
it returns undefined exactly when x.share or one of the five properties is
missing or otherwise falsy (in particular when one of them is the empty
string), when one of the four required fields is not a string, when bits is
truthy but not a string, or when a reached hex field fails to decode at its
width; and a returned Solution carries GeneralPurposeBits exactly when
x.share.bits is truthy. -/
theorem C10_fromJSON_characterization (x : JSol) :
    (Solution.fromJSON x = none ↔
      (¬ x.shareTruthy ∨ ¬ optTruthy x.extra_nonce_1 ∨
       ¬ optTruthy (x.shareField (fun o => o.timestamp)) ∨
       ¬ optTruthy (x.shareField (fun o => o.nonce)) ∨
       ¬ optTruthy (x.shareField (fun o => o.extra_nonce_2)) ∨
       ¬ optIsString x.extra_nonce_1 ∨
       ¬ optIsString (x.shareField (fun o => o.timestamp)) ∨
       ¬ optIsString (x.shareField (fun o => o.nonce)) ∨
       ¬ optIsString (x.shareField (fun o => o.extra_nonce_2)) ∨
       (optTruthy (x.shareField (fun o => o.bits)) ∧
         ¬ optIsString (x.shareField (fun o => o.bits))) ∨
       fourByteFromHex (optAsString (x.shareField (fun o => o.timestamp))) = none ∨
       fourByteFromHex (optAsString x.extra_nonce_1) = none ∨
       Bytes.fromHex (optAsString (x.shareField (fun o => o.extra_nonce_2))) = none ∨
       fourByteFromHex (optAsString (x.shareField (fun o => o.nonce))) = none ∨
       (optTruthy (x.shareField (fun o => o.bits)) ∧
         fourByteFromHex (optAsString (x.shareField (fun o => o.bits))) = none))) ∧
    (∀ s, Solution.fromJSON x = some s →
      s.gpr.isSome = optTruthy (x.shareField (fun o => o.bits))) := by
  unfold Solution.fromJSON
  by_cases hc : (¬ x.shareTruthy ∨ ¬ optTruthy x.extra_nonce_1 ∨
      ¬ optTruthy (x.shareField (fun o => o.timestamp)) ∨
      ¬ optTruthy (x.shareField (fun o => o.nonce)) ∨
      ¬ optTruthy (x.shareField (fun o => o.extra_nonce_2)) ∨
      ¬ optIsString x.extra_nonce_1 ∨
      ¬ optIsString (x.shareField (fun o => o.timestamp)) ∨
      ¬ optIsString (x.shareField (fun o => o.nonce)) ∨
      ¬ optIsString (x.shareField (fun o => o.extra_nonce_2)) ∨
      (optTruthy (x.shareField (fun o => o.bits)) ∧
        ¬ optIsString (x.shareField (fun o => o.bits))))
  · rw [if_pos hc]
    refine ⟨by simp only [true_iff]; tauto, by intro s hs; simp at hs⟩
  · rw [if_neg hc]
    constructor
    · rw [solutionDecodeTail_none_iff]
      constructor
      · intro h
        rcases h with h | h | h | h | h
        · exact Or.inr (Or.inr (Or.inr (Or.inr (Or.inr (Or.inr (Or.inr (Or.inr (Or.inr
            (Or.inr (Or.inl h))))))))))
        · exact Or.inr (Or.inr (Or.inr (Or.inr (Or.inr (Or.inr (Or.inr (Or.inr (Or.inr
            (Or.inr (Or.inr (Or.inl h)))))))))))
        · exact Or.inr (Or.inr (Or.inr (Or.inr (Or.inr (Or.inr (Or.inr (Or.inr (Or.inr
            (Or.inr (Or.inr (Or.inr (Or.inl h))))))))))))
        · exact Or.inr (Or.inr (Or.inr (Or.inr (Or.inr (Or.inr (Or.inr (Or.inr (Or.inr
            (Or.inr (Or.inr (Or.inr (Or.inr (Or.inl h)))))))))))))
        · exact Or.inr (Or.inr (Or.inr (Or.inr (Or.inr (Or.inr (Or.inr (Or.inr (Or.inr
            (Or.inr (Or.inr (Or.inr (Or.inr (Or.inr h)))))))))))))
      · intro h
        rcases h with h | h | h | h | h | h | h | h | h | h | h | h | h | h | h
        · exact absurd (Or.inl h) hc
        · exact absurd (Or.inr (Or.inl h)) hc
        · exact absurd (Or.inr (Or.inr (Or.inl h))) hc
        · exact absurd (Or.inr (Or.inr (Or.inr (Or.inl h)))) hc
        · exact absurd (Or.inr (Or.inr (Or.inr (Or.inr (Or.inl h))))) hc
        · exact absurd (Or.inr (Or.inr (Or.inr (Or.inr (Or.inr (Or.inl h)))))) hc
        · exact absurd (Or.inr (Or.inr (Or.inr (Or.inr (Or.inr (Or.inr (Or.inl h))))))) hc
        · exact absurd (Or.inr (Or.inr (Or.inr (Or.inr (Or.inr (Or.inr (Or.inr
            (Or.inl h)))))))) hc
        · exact absurd (Or.inr (Or.inr (Or.inr (Or.inr (Or.inr (Or.inr (Or.inr (Or.inr
            (Or.inl h))))))))) hc
        · exact absurd (Or.inr (Or.inr (Or.inr (Or.inr (Or.inr (Or.inr (Or.inr (Or.inr
            (Or.inr h))))))))) hc
        · exact Or.inl h
        · exact Or.inr (Or.inl h)
        · exact Or.inr (Or.inr (Or.inl h))
        · exact Or.inr (Or.inr (Or.inr (Or.inl h)))
        · exact Or.inr (Or.inr (Or.inr (Or.inr h)))
    · intro s hs
      exact solutionDecodeTail_gpr _ _ _ _ _ s hs

/-- C10 counterexample: on c10x every condition of the claim for returning a
Solution holds — share and extra_nonce_1 are present, the four fields are
present strings, bits is absent, and every hex field decodes at its width
(the empty extra_nonce_2 decodes to the legal empty buffer) — yet fromJSON
returns undefined, because presence is tested with truthiness and the empty
string is falsy. -/
theorem C10_empty_extra_nonce_2_rejected :
    Solution.fromJSON c10x = none ∧
    c10x.shareField (fun o => o.extra_nonce_2) = some (JVal.str "") ∧
    optIsString (c10x.shareField (fun o => o.extra_nonce_2)) = true ∧
    Bytes.fromHex "" = some [] ∧
    fourByteFromHex "00000001" = some [0, 0, 0, 1] ∧
    fourByteFromHex "00000002" = some [0, 0, 0, 2] ∧
    fourByteFromHex "00000003" = some [0, 0, 0, 3] := by
  decide

/-- Witness for C10 at the concrete input c10w: the characterization yields a
decoded solution carrying general-purpose bits. -/
theorem C10_fromJSON_characterization_witness :
    ∃ s, Solution.fromJSON c10w = some s ∧ s.gpr.isSome = true := by
  cases hx : Solution.fromJSON c10w with
  | none =>
    exact absurd ((C10_fromJSON_characterization c10w).1.mp hx) (by decide)
  | some s =>
    refine ⟨s, rfl, ?_⟩
    rw [(C10_fromJSON_characterization c10w).2 s hx]
    decide

/-- The body matcher is a function of chunk shapes alone: two chunk lists with
the same shapes match exactly the same expected-op lists. -/
theorem matchBody_shape_only : ∀ {t t' : List Chunk},
    List.Forall₂ (fun a b => chunkShape a = chunkShape b) t t' →
    ∀ ops, matchBody t ops = matchBody t' ops := by
  intro t t' hf
  induction hf with
  | nil => intro ops; cases ops <;> rfl
  | @cons a b l1 l2 hab _ ih =>
    intro ops
    cases ops with
    | nil => rfl
    | cons e es =>
      cases a <;> cases b <;> simp only [chunkShape, Sum.inl.injEq, Sum.inr.injEq,
          reduceCtorEq] at hab <;> cases e <;>
        simp [matchBody, hab, ih es]

/-- A buffer of length other than 1 and below 76 is emitted as a plain push of
itself. -/
theorem toOpCodeChunk_push (b : Bytes) (h1 : b.length ≠ 1) (h76 : b.length < 76) :
    toOpCodeChunk b = Chunk.push b b.length := by
  unfold toOpCodeChunk addBufferChunk
  rw [if_neg (by intro hh; exact h1 hh.1), if_neg (by intro hh; exact h1 hh.1), if_pos h76]

/-- The toOpCode emission is undone by fromOpCode. -/
theorem fromOpCode_toOpCodeChunk (b : Bytes) : fromOpCode (toOpCodeChunk b) = b := by
  unfold toOpCodeChunk
  by_cases hs : b.length = 1 ∧ 1 ≤ b.getD 0 0 ∧ b.getD 0 0 ≤ 16
  · rw [if_pos hs]
    obtain ⟨hl, hlo, hhi⟩ := hs
    match b, hl with
    | [b0], _ =>
      simp only [List.getD_cons_zero] at hlo hhi ⊢
      simp only [fromOpCode, Op.OP_1, Op.OP_1NEGATE, Op.OP_0, Op.OP_16]
      rw [if_neg (by omega), if_neg (by omega), if_pos (by omega)]
      simp only [List.cons.injEq, and_true]
      omega
  · rw [if_neg hs]
    by_cases hn : b.length = 1 ∧ b.getD 0 0 = 129
    · rw [if_pos hn]
      obtain ⟨hl, hv⟩ := hn
      match b, hl with
      | [b0], _ =>
        simp only [List.getD_cons_zero] at hv
        simp [fromOpCode, Op.OP_1NEGATE, hv]
    · rw [if_neg hn]
      simp [addBufferChunk, fromOpCode]

/-- The tag position accepts every toOpCode emission of a buffer of at most 20
bytes. -/
theorem tagChunkOK_toOpCodeChunk (b : Bytes) (h20 : b.length ≤ 20) :
    tagChunkOK (toOpCodeChunk b) = true := by
  unfold toOpCodeChunk
  by_cases hs : b.length = 1 ∧ 1 ≤ b.getD 0 0 ∧ b.getD 0 0 ≤ 16
  · rw [if_pos hs]
    simp only [tagChunkOK, Op.OP_0, Op.OP_1NEGATE, Op.OP_1, Op.OP_16]
    have := hs.2.1
    have := hs.2.2
    simp only [Bool.or_eq_true, decide_eq_true_eq, Bool.and_eq_true]
    omega
  · rw [if_neg hs]
    by_cases hn : b.length = 1 ∧ b.getD 0 0 = 129
    · rw [if_pos hn]
      simp [tagChunkOK, Op.OP_1NEGATE]
    · rw [if_neg hn]
      simp [addBufferChunk, tagChunkOK, h20]

/-- The additionalData position accepts every toOpCode emission. -/
theorem dataChunkOK_toOpCodeChunk (b : Bytes) : dataChunkOK (toOpCodeChunk b) = true := by
  unfold toOpCodeChunk
  by_cases hs : b.length = 1 ∧ 1 ≤ b.getD 0 0 ∧ b.getD 0 0 ≤ 16
  · rw [if_pos hs]
    simp only [dataChunkOK, Op.OP_0, Op.OP_1NEGATE, Op.OP_1, Op.OP_16]
    have := hs.2.1
    have := hs.2.2
    simp only [Bool.or_eq_true, decide_eq_true_eq, Bool.and_eq_true]
    omega
  · rw [if_neg hs]
    by_cases hn : b.length = 1 ∧ b.getD 0 0 = 129
    · rw [if_pos hn]
      simp [dataChunkOK, Op.OP_1NEGATE]
    · rw [if_neg hn]
      simp [addBufferChunk, dataChunkOK]

/-- The emitted body chunks match their own expected-op list. -/
theorem matchBody_self (ops : List BodyOp) : matchBody (bodyChunks ops) ops = true := by
  induction ops with
  | nil => rfl
  | cons e es ih =>
    cases e <;> simp [bodyChunks, bodyChunk, addBufferChunk, matchBody] <;>
      simpa [bodyChunks] using ih

/-- The v2 body does not length-match the v1 expected ops. -/
theorem v2_not_matches_v1 :
    matchBody (bodyChunks scriptOperationsV2ASICBoost) scriptOperationsV1NoASICBoost = false := by
  decide

/-- C3 amended: parsing the locking script emitted for a well-formed Job
yields a Job equal in content, category, tag, additionalData, userNonce,
useGeneralPurposeBits and minerPubKeyHash — but the difficulty comes back as
the decode of the emitted compact bits, which equals the original exactly when
pdiff1 / difficulty is itself representable as a compact target. -/
theorem C3_roundtrip_all_fields_except_difficulty (j : Job) (hwf : WellFormedJob j) :
    Job.readScript (Job.toScript j) =
      some { j with difficulty := bitsToDifficulty (readUInt32LE (Job.bits j)) } := by
  obtain ⟨hc, ht, hcat, hun, _had, hml, _, _⟩ := hwf
  have hboost : toOpCodeChunk boostpowBytes = Chunk.push boostpowBytes 8 := by decide
  have hcatc : toOpCodeChunk j.category = Chunk.push j.category 4 := by
    have := toOpCodeChunk_push j.category (by omega) (by omega)
    rwa [hcat] at this
  have hcontentc : toOpCodeChunk j.content = Chunk.push j.content 32 := by
    have := toOpCodeChunk_push j.content (by omega) (by omega)
    rwa [hc] at this
  have hunc : toOpCodeChunk j.userNonce = Chunk.push j.userNonce 4 := by
    have := toOpCodeChunk_push j.userNonce (by omega) (by omega)
    rwa [hun] at this
  have hbl : (Job.bits j).length = 4 := rfl
  have hbitsc : toOpCodeChunk (Job.bits j) = Chunk.push (Job.bits j) 4 := by
    have := toOpCodeChunk_push (Job.bits j) (by omega) (by omega)
    rwa [hbl] at this
  have htagok := tagChunkOK_toOpCodeChunk j.tag ht
  have htagfrom := fromOpCode_toOpCodeChunk j.tag
  have hdataok := dataChunkOK_toOpCodeChunk j.additionalData
  have hdatafrom := fromOpCode_toOpCodeChunk j.additionalData
  have hfc : ∀ (b : Bytes) (k : Nat), fromOpCode (Chunk.push b k) = b := fun _ _ => rfl
  cases hmph : j.minerPubKeyHash with
  | none =>
    have hts : Job.toScript j = toOpCodeChunk boostpowBytes :: Chunk.op Op.OP_DROP ::
        toOpCodeChunk j.category :: toOpCodeChunk j.content :: toOpCodeChunk (Job.bits j) ::
        toOpCodeChunk j.tag :: toOpCodeChunk j.userNonce :: toOpCodeChunk j.additionalData ::
        bodyChunks (scriptOperations j.useGeneralPurposeBits) := by
      simp [Job.toScript, hmph]
    cases hgpb : j.useGeneralPurposeBits with
    | false =>
      rw [hts, hgpb, hboost, hcatc, hcontentc, hbitsc, hunc]
      simp [Job.readScript, List.get?, scriptOperations, pushOpcode, pushLen, hc, hun,
        htagok, hdataok, remainingOperationsMatchExactly, List.drop, matchBody_self,
        hfc, hbl, decodeTargetChunk, htagfrom, hdatafrom, hmph, hgpb]
    | true =>
      rw [hts, hgpb, hboost, hcatc, hcontentc, hbitsc, hunc]
      simp [Job.readScript, List.get?, scriptOperations, pushOpcode, pushLen, hc, hun,
        htagok, hdataok, remainingOperationsMatchExactly, List.drop, matchBody_self,
        v2_not_matches_v1, hfc, hbl, decodeTargetChunk, htagfrom, hdatafrom, hmph, hgpb]
  | some m =>
    have hm20 : m.length = 20 := hml m hmph
    have hmc : toOpCodeChunk m = Chunk.push m 20 := by
      have := toOpCodeChunk_push m (by omega) (by omega)
      rwa [hm20] at this
    have hts : Job.toScript j = toOpCodeChunk boostpowBytes :: Chunk.op Op.OP_DROP ::
        toOpCodeChunk m :: toOpCodeChunk j.category :: toOpCodeChunk j.content ::
        toOpCodeChunk (Job.bits j) :: toOpCodeChunk j.tag :: toOpCodeChunk j.userNonce ::
        toOpCodeChunk j.additionalData ::
        bodyChunks (scriptOperations j.useGeneralPurposeBits) := by
      simp [Job.toScript, hmph]
    cases hgpb : j.useGeneralPurposeBits with
    | false =>
      rw [hts, hgpb, hboost, hcatc, hcontentc, hbitsc, hunc, hmc]
      simp [Job.readScript, List.get?, scriptOperations, pushOpcode, pushLen, hc, hun,
        htagok, hdataok, remainingOperationsMatchExactly, List.drop, matchBody_self,
        hfc, hbl, decodeTargetChunk, htagfrom, hdatafrom, hmph, hgpb]
    | true =>
      rw [hts, hgpb, hboost, hcatc, hcontentc, hbitsc, hunc, hmc]
      simp [Job.readScript, List.get?, scriptOperations, pushOpcode, pushLen, hc, hun,
        htagok, hdataok, remainingOperationsMatchExactly, List.drop, matchBody_self,
        v2_not_matches_v1, hfc, hbl, decodeTargetChunk, htagfrom, hdatafrom, hmph, hgpb]

set_option maxHeartbeats 3200000 in
/-- C2 amended: Job.readScript accepts a script exactly when (besides the
prefix checks) the chunks after position 8 (bounty) or 9 (contract) match
BODY_V1 — tried first, fixing useGeneralPurposeBits = false — or else BODY_V2
(useGeneralPurposeBits = true) at the level the matcher observes: the opcode
number of bare opcode chunks and only the payload LENGTH of push chunks, the
payload bytes never being compared (the last conjunct: the matcher is a
function of chunk shapes alone).  Scripts whose tail matches neither pattern
are rejected (contrapositive of the characterization). -/
theorem C2_tail_matched_by_shape_only (cs : List Chunk) (j : Job)
    (h : Job.readScript cs = some j) :
    ((j.minerPubKeyHash = none →
      ((remainingOperationsMatchExactly cs 8 scriptOperationsV1NoASICBoost = true ∧
        j.useGeneralPurposeBits = false) ∨
       (remainingOperationsMatchExactly cs 8 scriptOperationsV1NoASICBoost = false ∧
        remainingOperationsMatchExactly cs 8 scriptOperationsV2ASICBoost = true ∧
        j.useGeneralPurposeBits = true))) ∧
    (∀ m, j.minerPubKeyHash = some m →
      ((remainingOperationsMatchExactly cs 9 scriptOperationsV1NoASICBoost = true ∧
        j.useGeneralPurposeBits = false) ∨
       (remainingOperationsMatchExactly cs 9 scriptOperationsV1NoASICBoost = false ∧
        remainingOperationsMatchExactly cs 9 scriptOperationsV2ASICBoost = true ∧
        j.useGeneralPurposeBits = true)))) ∧
    (∀ (t t' : List Chunk) ops,
      List.Forall₂ (fun a b => chunkShape a = chunkShape b) t t' →
      matchBody t ops = matchBody t' ops) := by
  refine ⟨?_, fun t t' ops hf => matchBody_shape_only hf ops⟩
  unfold Job.readScript at h
  cases h0 : cs.get? 0 <;> rw [h0] at h
  · simp at h
  rename_i c0
  simp only [Option.bind_eq_bind, Option.some_bind] at h
  cases c0
  · simp at h
  rename_i b0 o0
  simp only [Option.some_bind] at h
  cases h1 : cs.get? 1 <;> rw [h1] at h
  · simp at h
  rename_i c1
  simp only [Option.bind_eq_bind, Option.some_bind] at h
  by_cases hg : (b0 = boostpowBytes ∧ c1 = Chunk.op Op.OP_DROP)
  · rw [if_neg (not_not_intro hg)] at h
    cases h2 : cs.get? 2 <;> rw [h2] at h
    · simp at h
    rename_i c2
    simp only [Option.bind_eq_bind, Option.some_bind] at h
    by_cases hb : pushOpcode c2 4 = true
    · -- bounty branch
      rw [if_pos hb] at h
      cases h3 : cs.get? 3 <;> rw [h3] at h
      · simp at h
      rename_i c3
      simp only [Option.bind_eq_bind, Option.some_bind] at h
      cases h4 : cs.get? 4 <;> rw [h4] at h
      · simp at h
      rename_i c4
      simp only [Option.bind_eq_bind, Option.some_bind] at h
      cases h5 : cs.get? 5 <;> rw [h5] at h
      · simp at h
      rename_i c5
      simp only [Option.bind_eq_bind, Option.some_bind] at h
      cases h6 : cs.get? 6 <;> rw [h6] at h
      · simp at h
      rename_i c6
      simp only [Option.bind_eq_bind, Option.some_bind] at h
      cases h7 : cs.get? 7 <;> rw [h7] at h
      · simp at h
      rename_i c7
      simp only [Option.bind_eq_bind, Option.some_bind] at h
      by_cases hcnd : (pushLen c3 32 = true ∧ pushLen c4 4 = true ∧ tagChunkOK c5 = true ∧
          pushLen c6 4 = true ∧ dataChunkOK c7 = true)
      · rw [if_pos hcnd] at h
        split at h
        · rename_i hv1
          simp only [Option.bind_eq_bind, Option.some_bind, pure] at h
          rw [Option.some.injEq] at h
          subst h
          exact ⟨fun _ => Or.inl ⟨hv1, rfl⟩, fun m hm => by simp at hm⟩
        · rename_i hv1
          split at h
          · rename_i hv2
            simp only [Option.bind_eq_bind, Option.some_bind, pure] at h
            rw [Option.some.injEq] at h
            subst h
            exact ⟨fun _ => Or.inr ⟨by simpa using hv1, hv2, rfl⟩, fun m hm => by simp at hm⟩
          · simp at h
      · rw [if_neg hcnd] at h
        simp at h
    · rw [if_neg hb] at h
      by_cases hb20 : pushOpcode c2 20 = true
      · -- contract branch
        rw [if_pos hb20] at h
        cases h3 : cs.get? 3 <;> rw [h3] at h
        · simp at h
        rename_i c3
        simp only [Option.bind_eq_bind, Option.some_bind] at h
        cases h4 : cs.get? 4 <;> rw [h4] at h
        · simp at h
        rename_i c4
        simp only [Option.bind_eq_bind, Option.some_bind] at h
        cases h5 : cs.get? 5 <;> rw [h5] at h
        · simp at h
        rename_i c5
        simp only [Option.bind_eq_bind, Option.some_bind] at h
        cases h6 : cs.get? 6 <;> rw [h6] at h
        · simp at h
        rename_i c6
        simp only [Option.bind_eq_bind, Option.some_bind] at h
        cases h7 : cs.get? 7 <;> rw [h7] at h
        · simp at h
        rename_i c7
        simp only [Option.bind_eq_bind, Option.some_bind] at h
        cases h8 : cs.get? 8 <;> rw [h8] at h
        · simp at h
        rename_i c8
        simp only [Option.bind_eq_bind, Option.some_bind] at h
        by_cases hcnd : (pushOpcode c3 4 = true ∧ pushLen c4 32 = true ∧ pushLen c5 4 = true ∧
            tagChunkOK c6 = true ∧ pushLen c7 4 = true ∧ dataChunkOK c8 = true)
        · rw [if_pos hcnd] at h
          split at h
          · rename_i hv1
            simp only [Option.bind_eq_bind, Option.some_bind, pure] at h
            rw [Option.some.injEq] at h
            subst h
            exact ⟨fun hn => by simp at hn, fun m hm => Or.inl ⟨hv1, rfl⟩⟩
          · rename_i hv1
            split at h
            · rename_i hv2
              simp only [Option.bind_eq_bind, Option.some_bind, pure] at h
              rw [Option.some.injEq] at h
              subst h
              exact ⟨fun hn => by simp at hn,
                fun m hm => Or.inr ⟨by simpa using hv1, hv2, rfl⟩⟩
            · simp at h
        · rw [if_neg hcnd] at h
          simp at h
      · rw [if_neg hb20] at h
        simp at h
  · rw [if_pos hg] at h
    simp at h

/-- C2 counterexample: a script whose tail differs from both BODY_V1 and
BODY_V2 in a push payload byte is accepted by the parser (lengths are all that
is compared), refuting the claim that every accepted tail equals a body
verbatim. -/
theorem C2_payload_mismatch_accepted :
    Job.readScript c2tampered = some c2job ∧
    c2tampered.drop 8 ≠ bodyChunks scriptOperationsV1NoASICBoost ∧
    c2tampered.drop 8 ≠ bodyChunks scriptOperationsV2ASICBoost := by
  decide

/-- Witness for C2 at the concrete script emitted for c2job. -/
theorem C2_tail_matched_by_shape_only_witness :
    ((c2job.minerPubKeyHash = none →
      ((remainingOperationsMatchExactly (Job.toScript c2job) 8
          scriptOperationsV1NoASICBoost = true ∧
        c2job.useGeneralPurposeBits = false) ∨
       (remainingOperationsMatchExactly (Job.toScript c2job) 8
          scriptOperationsV1NoASICBoost = false ∧
        remainingOperationsMatchExactly (Job.toScript c2job) 8
          scriptOperationsV2ASICBoost = true ∧
        c2job.useGeneralPurposeBits = true))) ∧
    (∀ m, c2job.minerPubKeyHash = some m →
      ((remainingOperationsMatchExactly (Job.toScript c2job) 9
          scriptOperationsV1NoASICBoost = true ∧
        c2job.useGeneralPurposeBits = false) ∨
       (remainingOperationsMatchExactly (Job.toScript c2job) 9
          scriptOperationsV1NoASICBoost = false ∧
        remainingOperationsMatchExactly (Job.toScript c2job) 9
          scriptOperationsV2ASICBoost = true ∧
        c2job.useGeneralPurposeBits = true)))) ∧
    (∀ (t t' : List Chunk) ops,
      List.Forall₂ (fun a b => chunkShape a = chunkShape b) t t' →
      matchBody t ops = matchBody t' ops) :=
  C2_tail_matched_by_shape_only (Job.toScript c2job) c2job (by decide)

/-- C3 counterexample: parsing the script emitted for the difficulty-7 job
gives back every field except the difficulty, which comes back as the compact
decode 16776960/2396745 of the emitted bits rather than 7 (no compact target
equals pdiff1/7 exactly, for every rounding choice of the encoder), so
parse(emit(j)) differs from j. -/
theorem C3_difficulty_not_roundtripped :
    Job.readScript (Job.toScript c3job) =
      some { c3job with difficulty := bitsToDifficulty (readUInt32LE (Job.bits c3job)) } ∧
    bitsToDifficulty (readUInt32LE (Job.bits c3job)) ≠ (⟨7, 1⟩ : Frac) ∧
    Job.readScript (Job.toScript c3job) ≠ some c3job := by
  decide

/-- Witness for C3 at the concrete job c3wjob (whose difficulty 1 even
round-trips exactly). -/
theorem C3_roundtrip_all_fields_except_difficulty_witness :
    Job.readScript (Job.toScript c3wjob) =
      some { c3wjob with difficulty := bitsToDifficulty (readUInt32LE (Job.bits c3wjob)) } :=
  C3_roundtrip_all_fields_except_difficulty c3wjob
    ⟨rfl, by decide, rfl, rfl, by decide, fun m hm => by cases hm; rfl, by decide, by decide⟩

/-- Witness for C4 at concrete puzzles and solutions covering all four
pairings. -/
theorem C4_version_field_and_mixed_pairings_witness :
    (∃ h, pow_string
        { category := [1, 2, 3, 4], content := [], difficulty := ⟨1, 1⟩,
          metaBegin := [], metaEnd := [], mask := none }
        { time := [], extraNonce1 := [], extraNonce2 := [], nonce := [], gpr := none } = some h ∧
      (BlockHeader.toBuffer h).take 4 = [1, 2, 3, 4]) ∧
    (∃ h, pow_string
        { category := [1, 2, 3, 4], content := [], difficulty := ⟨1, 1⟩,
          metaBegin := [], metaEnd := [], mask := some [255, 255, 0, 0] }
        { time := [], extraNonce1 := [], extraNonce2 := [], nonce := [],
          gpr := some [0, 0, 0, 224] } = some h ∧
      (BlockHeader.toBuffer h).take 4 =
        le4 ((readUInt32LE [1, 2, 3, 4] &&& readUInt32LE [255, 255, 0, 0]) |||
             (readUInt32LE [0, 0, 0, 224] &&& (4294967295 - w32 (readUInt32LE [255, 255, 0, 0]))))) ∧
    (pow_string
        { category := [1, 2, 3, 4], content := [], difficulty := ⟨1, 1⟩,
          metaBegin := [], metaEnd := [], mask := some [255, 255, 0, 0] }
        { time := [], extraNonce1 := [], extraNonce2 := [], nonce := [], gpr := none } = none ∧
      Proof.valid
        { category := [1, 2, 3, 4], content := [], difficulty := ⟨1, 1⟩,
          metaBegin := [], metaEnd := [], mask := some [255, 255, 0, 0] }
        { time := [], extraNonce1 := [], extraNonce2 := [], nonce := [], gpr := none } =
        Except.ok false) ∧
    (pow_string
        { category := [1, 2, 3, 4], content := [], difficulty := ⟨1, 1⟩,
          metaBegin := [], metaEnd := [], mask := none }
        { time := [], extraNonce1 := [], extraNonce2 := [], nonce := [],
          gpr := some [9, 9, 9, 9] } = none ∧
      Proof.valid
        { category := [1, 2, 3, 4], content := [], difficulty := ⟨1, 1⟩,
          metaBegin := [], metaEnd := [], mask := none }
        { time := [], extraNonce1 := [], extraNonce2 := [], nonce := [],
          gpr := some [9, 9, 9, 9] } = Except.ok false) := by
  refine ⟨?_, ?_, ?_, ?_⟩
  · exact (C4_version_field_and_mixed_pairings _ _ (by decide) (by decide)).1 rfl rfl
  · exact (C4_version_field_and_mixed_pairings _ _ (by decide) (by decide)).2.1 _ _ rfl rfl
  · exact (C4_version_field_and_mixed_pairings _ _ (by decide) (by decide)).2.2.1 _ rfl rfl
  · exact (C4_version_field_and_mixed_pairings _ _ (by decide) (by decide)).2.2.2 _ rfl rfl

set_option maxRecDepth 100000 in
/-- C1: Proof.valid never returns true: for every puzzle and solution it is
either false (no PowString produced) or the TypeError raised by the id getter,
which the validity comparison evaluates first.  At the repository's own stratum
test vector (remaining conjuncts) a PowString is produced, it serializes back
to the same 80 bytes, and its double SHA-256 read little-endian is strictly
below the decoded 0x1d00ffff target, so the claimed equivalence would require
valid() = true there — instead evaluation throws. -/
theorem C1_valid_never_true :
    (∀ p x, Proof.valid p x = Except.ok false ∨
      Proof.valid p x = Except.error "TypeError: this.hash is not a function") ∧
    pow_string c1puzzle c1solution = some (BlockHeader.fromBuffer s2Header) ∧
    BlockHeader.toBuffer (BlockHeader.fromBuffer s2Header) = s2Header ∧
    beNat (BlockHeader.hashDisplayBytes (BlockHeader.fromBuffer s2Header)) <
      BlockHeader.getTargetDifficulty (BlockHeader.fromBuffer s2Header) ∧
    Proof.valid c1puzzle c1solution =
      Except.error "TypeError: this.hash is not a function" := by
  refine ⟨fun p x => ?_, by decide, by decide, by decide, by decide⟩
  unfold Proof.valid
  cases pow_string p x with
  | none => exact Or.inl rfl
  | some s => exact Or.inr rfl


end Boost
